import Mathlib

/-
Verification development for the OpenViking multi-language code-skeleton
extraction engine (openviking/parse/parsers/code/ast).  The Python source is
shallowly embedded: tree-sitter concrete syntax trees become the `Node`
inductive, every adapter's tree walk becomes a Lean function over `Node`, and
the serializer `to_text` becomes a pure function over `CodeSkeleton`.
Python string operations are modelled over `List Char` with Python semantics.
-/

set_option maxRecDepth 10000

namespace OpenViking

/-- Python whitespace: the ASCII characters stripped by str.strip() and
matched by the regex class backslash-s. -/
def pyIsSpace (c : Char) : Bool :=
  c == ' ' || c == '\t' || c == '\n' || c == '\r' || c == '\x0b' || c == '\x0c'

/-- Remove a trailing run of characters satisfying p. -/
def dropTrailing (p : Char → Bool) (l : List Char) : List Char :=
  (l.reverse.dropWhile p).reverse

/-- Remove leading and trailing runs of characters satisfying p. -/
def stripBoth (p : Char → Bool) (l : List Char) : List Char :=
  dropTrailing p (l.dropWhile p)

/-- Python str.strip() with no argument. -/
def pyStrip (s : String) : String := String.mk (stripBoth pyIsSpace s.data)

/-- Python str.strip(chars): strip any of the given characters from both ends. -/
def pyStripChars (cs : List Char) (s : String) : String :=
  String.mk (stripBoth (fun c => cs.contains c) s.data)

/-- Python str.startswith. -/
def pyStartsWith (s pre : String) : Bool := pre.data.isPrefixOf s.data

/-- Python str.endswith. -/
def pyEndsWith (s suf : String) : Bool := suf.data.isSuffixOf s.data

/-- Python slicing s[n:]. -/
def pyDrop (s : String) (n : Nat) : String := String.mk (s.data.drop n)

/-- Python slicing s[:-n]. -/
def pyDropRight (s : String) (n : Nat) : String := String.mk ((s.data.reverse.drop n).reverse)

/-- Python len() on a string (character count). -/
def pyLen (s : String) : Nat := s.data.length

/-- Split a character list on a separator character, Python str.split(sep)
semantics: the empty list yields one empty field, separators delimit fields. -/
def splitOnChar (sep : Char) : List Char → List (List Char)
  | [] => [[]]
  | c :: rest =>
    if c == sep then [] :: splitOnChar sep rest
    else (c :: (splitOnChar sep rest).headD []) :: (splitOnChar sep rest).tail

/-- Python s.split("\n"). -/
def pySplitNl (s : String) : List String := (splitOnChar '\n' s.data).map String.mk

/-- Python sep.join on character lists. -/
def joinSep (sep : List Char) : List (List Char) → List Char
  | [] => []
  | [x] => x
  | x :: xs => x ++ sep ++ joinSep sep xs

/-- Python sep.join(xs). -/
def pyJoin (sep : String) (xs : List String) : String :=
  String.mk (joinSep sep.data (xs.map String.data))

/-- The first line of a text, as Python text.split("\n")[0]. -/
def firstLine (s : String) : String := (pySplitNl s).headD ""

/-- One pass of re.sub with pattern backslash-s-plus and replacement a single
space: every maximal run of whitespace becomes one space.  The flag records
whether we are inside a whitespace run. -/
def wsCollapseAux : Bool → List Char → List Char
  | _, [] => []
  | inRun, c :: rest =>
    if pyIsSpace c then
      if inRun then wsCollapseAux true rest
      else ' ' :: wsCollapseAux true rest
    else c :: wsCollapseAux false rest

/-- re.sub of one-or-more whitespace by a single space. -/
def wsCollapse (l : List Char) : List Char := wsCollapseAux false l

/-- Python str.lower() (ASCII as used for file extensions). -/
def pyLower (s : String) : String := String.mk (s.data.map Char.toLower)

/-- The parameter-text cleanup repeated in every adapter: strip, remove one
surrounding pair of parentheses when present, strip again. -/
def stripParens (s : String) : String :=
  let raw := pyStrip s
  let raw := if pyStartsWith raw "(" && pyEndsWith raw ")" then pyDropRight (pyDrop raw 1) 1 else raw
  pyStrip raw

/-- skeleton.py: collapse multi-line params into a single line
(re.sub whitespace-run to space, then .strip(), then .strip(",")). -/
def _compact_params (params : String) : String :=
  pyStripChars [','] (pyStrip (String.mk (wsCollapse params.data)))

/-- skeleton.py FunctionSig. -/
structure FunctionSig where
  name : String
  params : String
  return_type : String
  docstring : String
deriving DecidableEq

/-- skeleton.py ClassSkeleton. -/
structure ClassSkeleton where
  name : String
  bases : List String
  docstring : String
  methods : List FunctionSig
deriving DecidableEq

/-- skeleton.py CodeSkeleton. -/
structure CodeSkeleton where
  file_name : String
  language : String
  module_doc : String
  imports : List String
  classes : List ClassSkeleton
  functions : List FunctionSig
deriving DecidableEq

/-- The inner helper _doc of CodeSkeleton.to_text: render a docstring block at
the given indent, compact (first line only) or verbose (all lines). -/
def _doc (verbose : Bool) (raw : String) (indent : String) : List String :=
  if raw == "" then []
  else
    let first := pyStrip ((pySplitNl raw).headD "")
    if !verbose then [indent ++ "\"\"\"" ++ first ++ "\"\"\""]
    else
      let doc_lines := pySplitNl (pyStrip raw)
      if doc_lines.length == 1 then [indent ++ "\"\"\"" ++ first ++ "\"\"\""]
      else
        [indent ++ "\"\"\"" ++ doc_lines.headD ""]
          ++ (doc_lines.tail.map (fun l => indent ++ pyStrip l))
          ++ [indent ++ "\"\"\""]

/-- The lines contributed by one method inside a class block. -/
def methodLines (verbose : Bool) (method : FunctionSig) : List String :=
  let ret := if method.return_type != "" then " -> " ++ method.return_type else ""
  let params := _compact_params method.params
  ["  + " ++ method.name ++ "(" ++ params ++ ")" ++ ret] ++ _doc verbose method.docstring "    "

/-- The lines contributed by one class: signature, doc block, method loop
(a fold mirroring the for-loop over methods), blank separator. -/
def classLines (verbose : Bool) (cls : ClassSkeleton) : List String :=
  let bases_str := if cls.bases != ([] : List String) then "(" ++ pyJoin ", " cls.bases ++ ")" else ""
  let lines := ["class " ++ cls.name ++ bases_str] ++ _doc verbose cls.docstring "  "
  let lines := cls.methods.foldl (fun acc method => acc ++ methodLines verbose method) lines
  lines ++ [""]

/-- The lines contributed by one top-level function. -/
def fnLines (verbose : Bool) (fn : FunctionSig) : List String :=
  let ret := if fn.return_type != "" then " -> " ++ fn.return_type else ""
  let params := _compact_params fn.params
  ["def " ++ fn.name ++ "(" ++ params ++ ")" ++ ret] ++ _doc verbose fn.docstring "  "

/-- CodeSkeleton.to_text before the final join and strip: the list `lines`
built by the serializer, with the two for-loops as folds. -/
def CodeSkeleton.toLines (self : CodeSkeleton) (verbose : Bool) : List String :=
  let lines := ["# " ++ self.file_name ++ " [" ++ self.language ++ "]"]
  let lines := lines ++
    (if self.module_doc != "" then
      ["module: \"" ++ pyStrip ((pySplitNl self.module_doc).headD "") ++ "\""]
     else [])
  let lines := lines ++
    (if self.imports != ([] : List String) then ["imports: " ++ pyJoin ", " self.imports] else [])
  let lines := lines ++ [""]
  let lines := self.classes.foldl (fun acc cls => acc ++ classLines verbose cls) lines
  let lines := self.functions.foldl (fun acc fn => acc ++ fnLines verbose fn) lines
  lines

/-- CodeSkeleton.to_text: newline-join of the built lines, stripped. -/
def CodeSkeleton.to_text (self : CodeSkeleton) (verbose : Bool) : String :=
  pyStrip (pyJoin "\n" (self.toLines verbose))

/-- A tree-sitter concrete-syntax-tree node: its type, its source text
(what _node_text recovers from the byte span) and its children. -/
inductive Node where
  | mk (type : String) (text : String) (children : List Node)

def Node.type : Node → String
  | .mk t _ _ => t

def Node.text : Node → String
  | .mk _ s _ => s

def Node.children : Node → List Node
  | .mk _ _ c => c

namespace Go

/-- go.py _preceding_doc: collect consecutive // comment lines immediately
before siblings[idx], strip the leading slashes, join in source order. -/
def _preceding_doc (siblings : List Node) (idx : Nat) : String :=
  let pre := (siblings.take idx).reverse.takeWhile (fun n => n.type == "comment")
  let lines := (pre.map (fun n =>
    let raw := pyStrip n.text
    if pyStartsWith raw "//" then pyStrip (pyDrop raw 2) else raw)).reverse
  pyStrip (pyJoin "\n" lines)

/-- State of the child loop in go.py _extract_function. -/
structure FnAcc where
  name : String
  params : String
  return_type : String
  cnt : Nat

/-- One iteration of the child loop in go.py _extract_function. -/
def fnStep (is_method : Bool) (st : FnAcc) (child : Node) : FnAcc :=
  if child.type == "identifier" && st.name == "" then { st with name := child.text }
  else if child.type == "field_identifier" && st.name == "" then { st with name := child.text }
  else if child.type == "parameter_list" then
    let cnt := st.cnt + 1
    if is_method && cnt == 1 then { st with cnt := cnt }
    else if st.params == "" then { st with cnt := cnt, params := stripParens child.text }
    else { st with cnt := cnt }
  else if child.type == "type_identifier" then { st with return_type := child.text }
  else st

/-- go.py _extract_function. -/
def _extract_function (node : Node) (docstring : String) : FunctionSig :=
  let is_method := node.type == "method_declaration"
  let st := node.children.foldl (fnStep is_method) ⟨"", "", "", 0⟩
  ⟨st.name, st.params, st.return_type, docstring⟩

/-- go.py _extract_struct: name from the first type_identifier child. -/
def _extract_struct (node : Node) (docstring : String) : ClassSkeleton :=
  let name := ((node.children.find? (fun c => c.type == "type_identifier")).map Node.text).getD ""
  ⟨name, [], docstring, []⟩

/-- The interpreted_string_literal texts collected from one import_spec. -/
def importSpecStrings (spec : Node) : List String :=
  spec.children.flatMap (fun s2 =>
    if s2.type == "interpreted_string_literal" then [pyStripChars ['"'] (pyStrip s2.text)] else [])

/-- The imports collected from one import_declaration child. -/
def importsOf (child : Node) : List String :=
  child.children.flatMap (fun sub =>
    if sub.type == "import_spec" then importSpecStrings sub
    else if sub.type == "import_spec_list" then
      sub.children.flatMap (fun s2 => if s2.type == "import_spec" then importSpecStrings s2 else [])
    else [])

/-- The classes collected from one type_declaration child: one per type_spec
that contains a struct_type or interface_type. -/
def typeSpecClasses (siblings : List Node) (idx : Nat) (child : Node) : List ClassSkeleton :=
  child.children.flatMap (fun sub =>
    if sub.type == "type_spec"
        && sub.children.any (fun s2 => s2.type == "struct_type" || s2.type == "interface_type") then
      [_extract_struct sub (_preceding_doc siblings idx)]
    else [])

/-- One iteration of the top-level sibling loop of GoExtractor.extract,
carrying (imports, classes, functions). -/
def step (siblings : List Node)
    (st : List String × List ClassSkeleton × List FunctionSig) (p : Nat × Node) :
    List String × List ClassSkeleton × List FunctionSig :=
  let idx := p.1
  let child := p.2
  if child.type == "import_declaration" then
    (st.1 ++ importsOf child, st.2.1, st.2.2)
  else if child.type == "function_declaration" || child.type == "method_declaration" then
    (st.1, st.2.1, st.2.2 ++ [_extract_function child (_preceding_doc siblings idx)])
  else if child.type == "type_declaration" then
    (st.1, st.2.1 ++ typeSpecClasses siblings idx child, st.2.2)
  else st

/-- GoExtractor.extract (the tree-sitter parse itself is external; the walk
starts from the parsed root node). -/
def extract (file_name : String) (root : Node) : CodeSkeleton :=
  let siblings := root.children
  let res := siblings.enum.foldl (step siblings) ([], [], [])
  { file_name := file_name, language := "Go", module_doc := "",
    imports := res.1, classes := res.2.1, functions := res.2.2 }

end Go

namespace Rust

/-- rust.py _preceding_doc inner while-loop, walking backwards over the
reversed prefix: stop at the first sibling that is not a line_comment or has
no doc_comment child; collected nearest-first. -/
def docAux : List Node → List String
  | [] => []
  | n :: rest =>
    if n.type == "line_comment" then
      match n.children.find? (fun c => c.type == "doc_comment") with
      | none => []
      | some dc => pyStrip dc.text :: docAux rest
    else []

/-- rust.py _preceding_doc: consecutive /// doc comment lines before
siblings[idx], joined in source order. -/
def _preceding_doc (siblings : List Node) (idx : Nat) : String :=
  pyStrip (pyJoin "\n" (docAux ((siblings.take idx).reverse)).reverse)

/-- One iteration of the child loop in rust.py _extract_function, carrying
(name, params, return_type). -/
def fnStep (st : String × String × String) (child : Node) : String × String × String :=
  if child.type == "identifier" && st.1 == "" then (child.text, st.2.1, st.2.2)
  else if child.type == "parameters" then (st.1, stripParens child.text, st.2.2)
  else if child.type == "type_identifier" then (st.1, st.2.1, child.text)
  else if child.type == "scoped_type_identifier" then (st.1, st.2.1, child.text)
  else if child.type == "generic_type" then (st.1, st.2.1, child.text)
  else st

/-- rust.py _extract_function. -/
def _extract_function (node : Node) (docstring : String) : FunctionSig :=
  let st := node.children.foldl fnStep ("", "", "")
  ⟨st.1, st.2.1, st.2.2, docstring⟩

/-- One iteration of the child loop in rust.py _extract_struct_or_trait,
carrying (name, bases). -/
def structStep (st : String × List String) (child : Node) : String × List String :=
  if (child.type == "type_identifier" || child.type == "identifier") && st.1 == "" then
    (child.text, st.2)
  else if child.type == "trait_bounds" then
    (st.1, st.2 ++ child.children.flatMap (fun sub =>
      if sub.type == "type_identifier" then [sub.text] else []))
  else st

/-- rust.py _extract_struct_or_trait: never carries methods of its own. -/
def _extract_struct_or_trait (node : Node) (docstring : String) : ClassSkeleton :=
  let st := node.children.foldl structStep ("", [])
  ⟨st.1, st.2, docstring, []⟩

/-- The loop over one declaration_list in rust.py _extract_impl, appending a
method for each function_item with its preceding doc comment. -/
def implMethodStep (siblings : List Node) (acc : List FunctionSig) (p : Nat × Node) :
    List FunctionSig :=
  if p.2.type == "function_item" then
    acc ++ [_extract_function p.2 (_preceding_doc siblings p.1)]
  else acc

/-- State of the child loop in rust.py _extract_impl: (name, methods). -/
def implStep (st : String × List FunctionSig) (child : Node) : String × List FunctionSig :=
  if child.type == "type_identifier" && st.1 == "" then (child.text, st.2)
  else if child.type == "declaration_list" then
    (st.1, child.children.enum.foldl (implMethodStep child.children) st.2)
  else st

/-- rust.py _extract_impl: an impl block becomes a synthetic class named
"impl Name" holding the methods of its declaration_list. -/
def _extract_impl (node : Node) : ClassSkeleton :=
  let st := node.children.foldl implStep ("", [])
  ⟨"impl " ++ st.1, [], "", st.2⟩

/-- Python text.strip().rstrip(";").replace("use ", "") for use_declarations. -/
def useReplace : List Char → List Char
  | 'u' :: 's' :: 'e' :: ' ' :: rest => useReplace rest
  | c :: rest => c :: useReplace rest
  | [] => []

/-- The import string recovered from one use_declaration. -/
def useImport (child : Node) : String :=
  String.mk (useReplace (dropTrailing (fun c => c == ';') (pyStrip child.text).data))

/-- One iteration of the top-level sibling loop of RustExtractor.extract. -/
def step (siblings : List Node)
    (st : List String × List ClassSkeleton × List FunctionSig) (p : Nat × Node) :
    List String × List ClassSkeleton × List FunctionSig :=
  let idx := p.1
  let child := p.2
  if child.type == "use_declaration" then
    (st.1 ++ [useImport child], st.2.1, st.2.2)
  else if child.type == "struct_item" || child.type == "trait_item" || child.type == "enum_item" then
    (st.1, st.2.1 ++ [_extract_struct_or_trait child (_preceding_doc siblings idx)], st.2.2)
  else if child.type == "impl_item" then
    (st.1, st.2.1 ++ [_extract_impl child], st.2.2)
  else if child.type == "function_item" then
    (st.1, st.2.1, st.2.2 ++ [_extract_function child (_preceding_doc siblings idx)])
  else st

/-- RustExtractor.extract. -/
def extract (file_name : String) (root : Node) : CodeSkeleton :=
  let siblings := root.children
  let res := siblings.enum.foldl (step siblings) ([], [], [])
  { file_name := file_name, language := "Rust", module_doc := "",
    imports := res.1, classes := res.2.1, functions := res.2.2 }

end Rust

namespace Python

/-- python.py quote stripping: try triple then single quotes of both kinds;
on a match drop them and strip, otherwise return the text unchanged. -/
def stripQuotes (raw : String) : String :=
  match ["\"\"\"", "\x27\x27\x27", "\"", "\x27"].find?
      (fun q => pyStartsWith raw q && pyEndsWith raw q && 2 * pyLen q ≤ pyLen raw) with
  | some q => pyStrip (pyDropRight (pyDrop raw (pyLen q)) (pyLen q))
  | none => raw

/-- python.py _first_string_child: docstring from the first
expression_statement of a body. -/
def _first_string_child (body : Option Node) : String :=
  match body with
  | none => ""
  | some b =>
    match b.children.find? (fun c => c.type == "expression_statement") with
    | none => ""
    | some es =>
      match es.children.find? (fun s => s.type == "string" || s.type == "concatenated_string") with
      | none => ""
      | some sub => stripQuotes (pyStrip sub.text)

/-- State of the child loop in python.py _extract_function. -/
structure FnAcc where
  name : String
  params : String
  return_type : String
  body : Option Node

/-- One iteration of the child loop in python.py _extract_function. -/
def fnStep (st : FnAcc) (child : Node) : FnAcc :=
  if child.type == "identifier" then { st with name := child.text }
  else if child.type == "parameters" then { st with params := stripParens child.text }
  else if child.type == "type" then { st with return_type := pyStrip child.text }
  else if child.type == "block" then { st with body := some child }
  else st

/-- python.py _extract_function. -/
def _extract_function (node : Node) : FunctionSig :=
  let st := node.children.foldl fnStep ⟨"", "", "", none⟩
  ⟨st.name, st.params, st.return_type, _first_string_child st.body⟩

/-- State of the child loop in python.py _extract_class. -/
structure ClassAcc where
  name : String
  bases : List String
  body : Option Node

/-- One iteration of the child loop in python.py _extract_class. -/
def classStep (st : ClassAcc) (child : Node) : ClassAcc :=
  if child.type == "identifier" then { st with name := child.text }
  else if child.type == "argument_list" then
    { st with bases := st.bases ++ child.children.flatMap (fun arg =>
        if arg.type == "," || arg.type == "(" || arg.type == ")" then []
        else [pyStrip arg.text]) }
  else if child.type == "block" then { st with body := some child }
  else st

/-- The loop over a class body collecting methods (plain and decorated). -/
def methodStep (acc : List FunctionSig) (child : Node) : List FunctionSig :=
  if child.type == "function_definition" then acc ++ [_extract_function child]
  else if child.type == "decorated_definition" then
    acc ++ child.children.flatMap (fun sub =>
      if sub.type == "function_definition" then [_extract_function sub] else [])
  else acc

/-- python.py _extract_class. -/
def _extract_class (node : Node) : ClassSkeleton :=
  let st := node.children.foldl classStep ⟨"", [], none⟩
  let docstring := _first_string_child st.body
  let methods := match st.body with
    | none => []
    | some b => b.children.foldl methodStep []
  ⟨st.name, st.bases, docstring, methods⟩

/-- python.py _extract_imports, import_statement branch. -/
def importStatementNames (node : Node) : List String :=
  node.children.flatMap (fun child =>
    if child.type == "dotted_name" then [child.text]
    else if child.type == "aliased_import" then
      match child.children.find? (fun sub => sub.type == "dotted_name") with
      | some sub => [sub.text]
      | none => []
    else [])

/-- python.py _extract_imports, import_from_statement branch: the child loop
carrying (module, names), with the early return on wildcard_import. -/
def fromAux : List Node → String → List String → List String
  | [], module, names =>
    if names != ([] : List String) then
      names.map (fun n => if module != "" then module ++ "." ++ n else n)
    else if module != "" then [module] else []
  | child :: rest, module, names =>
    if child.type == "dotted_name" && module == "" then fromAux rest child.text names
    else if child.type == "import_prefix" then fromAux rest child.text names
    else if child.type == "wildcard_import" then [module ++ ".*"]
    else if child.type == "dotted_name" && module != "" then
      fromAux rest module (names ++ [child.text])
    else if child.type == "aliased_import" then
      match child.children.find? (fun sub => sub.type == "dotted_name") with
      | some sub => fromAux rest module (names ++ [sub.text])
      | none => fromAux rest module names
    else fromAux rest module names

/-- python.py _extract_imports. -/
def _extract_imports (node : Node) : List String :=
  if node.type == "import_statement" then importStatementNames node
  else if node.type == "import_from_statement" then fromAux node.children "" []
  else []

/-- The module-docstring scan of PythonExtractor.extract: skip comments and
newlines; if the first other node is an expression_statement, take its last
string-ish child, quote-stripped. -/
def moduleDocOf (children : List Node) : String :=
  match children.find? (fun c => !(c.type == "comment" || c.type == "newline")) with
  | some child =>
    if child.type == "expression_statement" then
      child.children.foldl (fun acc sub =>
        if sub.type == "string" || sub.type == "concatenated_string" then
          stripQuotes (pyStrip sub.text)
        else acc) ""
    else ""
  | none => ""

/-- One iteration of the top-level loop of PythonExtractor.extract. -/
def step (st : List String × List ClassSkeleton × List FunctionSig) (child : Node) :
    List String × List ClassSkeleton × List FunctionSig :=
  if child.type == "import_statement" || child.type == "import_from_statement" then
    (st.1 ++ _extract_imports child, st.2.1, st.2.2)
  else if child.type == "class_definition" then
    (st.1, st.2.1 ++ [_extract_class child], st.2.2)
  else if child.type == "function_definition" then
    (st.1, st.2.1, st.2.2 ++ [_extract_function child])
  else if child.type == "decorated_definition" then
    match child.children.find?
        (fun s => s.type == "class_definition" || s.type == "function_definition") with
    | some sub =>
      if sub.type == "class_definition" then (st.1, st.2.1 ++ [_extract_class sub], st.2.2)
      else (st.1, st.2.1, st.2.2 ++ [_extract_function sub])
    | none => st
  else st

/-- PythonExtractor.extract. -/
def extract (file_name : String) (root : Node) : CodeSkeleton :=
  let children := root.children
  let res := children.foldl step ([], [], [])
  { file_name := file_name, language := "Python", module_doc := moduleDocOf children,
    imports := res.1, classes := res.2.1, functions := res.2.2 }

end Python

namespace JsTs

/-- js_ts.py _parse_jsdoc: strip the block-comment markers and the leading
stars of each line, keep the non-empty lines. -/
def _parse_jsdoc (raw0 : String) : String :=
  let raw := pyStrip raw0
  let raw := if pyStartsWith raw "/**" then pyDrop raw 3
             else if pyStartsWith raw "/*" then pyDrop raw 2
             else raw
  let raw := if pyEndsWith raw "*/" then pyDropRight raw 2 else raw
  let lines := (pySplitNl raw).map (fun l =>
    pyStrip (String.mk ((pyStrip l).data.dropWhile (fun c => c == '*'))))
  pyStrip (pyJoin "\n" (lines.filter (fun l => l != "")))

/-- js_ts.py _preceding_doc: the single comment immediately before
siblings[idx], parsed as JSDoc or line comment. -/
def _preceding_doc (siblings : List Node) (idx : Nat) : String :=
  if idx == 0 then ""
  else
    match siblings.get? (idx - 1) with
    | none => ""
    | some prev =>
      if prev.type == "comment" then
        let raw := pyStrip prev.text
        if pyStartsWith raw "/*" then _parse_jsdoc raw
        else if pyStartsWith raw "//" then pyStrip (pyDrop raw 2)
        else ""
      else ""

/-- js_ts.py _first_string_in_body. -/
def _first_string_in_body (body : Option Node) : String :=
  match body with
  | none => ""
  | some b =>
    match b.children.find? (fun c => c.type == "expression_statement") with
    | none => ""
    | some es =>
      match es.children.find? (fun s => s.type == "string") with
      | none => ""
      | some sub =>
        let raw := pyStrip sub.text
        match ["\"\"\"", "\x27\x27\x27", "\"", "\x27", "\x60"].find?
            (fun q => pyStartsWith raw q && pyEndsWith raw q && 2 * pyLen q ≤ pyLen raw) with
        | some q => pyStrip (pyDropRight (pyDrop raw (pyLen q)) (pyLen q))
        | none => raw

/-- State of the child loop in js_ts.py _extract_function. -/
structure FnAcc where
  name : String
  params : String
  return_type : String
  body : Option Node

/-- One iteration of the child loop in js_ts.py _extract_function. -/
def fnStep (st : FnAcc) (child : Node) : FnAcc :=
  if child.type == "identifier" && st.name == "" then { st with name := child.text }
  else if child.type == "property_identifier" && st.name == "" then { st with name := child.text }
  else if child.type == "formal_parameters" || child.type == "call_signature" then
    { st with params := stripParens child.text }
  else if child.type == "type_annotation" then
    match child.children.find? (fun sub => !(sub.type == ":")) with
    | some sub => { st with return_type := pyStrip sub.text }
    | none => st
  else if child.type == "statement_block" then { st with body := some child }
  else st

/-- js_ts.py _extract_function. -/
def _extract_function (node : Node) (docstring : String) : FunctionSig :=
  let st := node.children.foldl fnStep ⟨"", "", "", none⟩
  let d := if docstring == "" then _first_string_in_body st.body else docstring
  ⟨st.name, st.params, st.return_type, d⟩

/-- State of the child loop in js_ts.py _extract_class. -/
structure ClassAcc where
  name : String
  bases : List String
  body : Option Node

/-- One iteration of the child loop in js_ts.py _extract_class. -/
def classStep (st : ClassAcc) (child : Node) : ClassAcc :=
  if child.type == "identifier" && st.name == "" then { st with name := child.text }
  else if child.type == "type_identifier" && st.name == "" then { st with name := child.text }
  else if child.type == "class_heritage" then
    { st with bases := st.bases ++ child.children.flatMap (fun sub =>
        if sub.type == "extends_clause" then
          sub.children.flatMap (fun s2 =>
            if s2.type == "identifier" || s2.type == "type_identifier"
                || s2.type == "member_expression" then [s2.text] else [])
        else []) }
  else if child.type == "class_body" then { st with body := some child }
  else st

/-- The loop over a class body collecting methods and arrow-function fields. -/
def methodStep (siblings : List Node) (acc : List FunctionSig) (p : Nat × Node) :
    List FunctionSig :=
  let idx := p.1
  let child := p.2
  if child.type == "method_definition" then
    acc ++ [_extract_function child (_preceding_doc siblings idx)]
  else if child.type == "public_field_definition" then
    match child.children.find? (fun sub => sub.type == "arrow_function") with
    | some sub =>
      let fn := _extract_function sub (_preceding_doc siblings idx)
      let fn := match child.children.find?
          (fun s2 => s2.type == "property_identifier" || s2.type == "identifier") with
        | some s2 => { fn with name := s2.text }
        | none => fn
      acc ++ [fn]
    | none => acc
  else acc

/-- js_ts.py _extract_class. -/
def _extract_class (node : Node) (docstring : String) : ClassSkeleton :=
  let st := node.children.foldl classStep ⟨"", [], none⟩
  let d := if docstring == "" then _first_string_in_body st.body else docstring
  let methods := match st.body with
    | none => []
    | some b => b.children.enum.foldl (methodStep b.children) []
  ⟨st.name, st.bases, d, methods⟩

/-- The module string of one import_statement (first string child, quotes
stripped), if any. -/
def importOf (child : Node) : Option String :=
  match child.children.find? (fun sub => sub.type == "string") with
  | some sub => some (pyStripChars ['"', '\x27'] (pyStrip sub.text))
  | none => none

/-- The functions contributed by one lexical_declaration: each
variable_declarator is scanned for an identifier (the binding name) and
arrow_functions, which become named functions. -/
def lexicalFns (siblings : List Node) (idx : Nat) (child : Node) : List FunctionSig :=
  child.children.flatMap (fun sub =>
    if sub.type == "variable_declarator" then
      (sub.children.foldl (fun (st : String × List FunctionSig) s2 =>
        if s2.type == "identifier" then (s2.text, st.2)
        else if s2.type == "arrow_function" then
          let fn := _extract_function s2 (_preceding_doc siblings idx)
          (st.1, st.2 ++ [{ fn with name := st.1 }])
        else st) ("", [])).2
    else [])

/-- One iteration of the top-level sibling loop of JsTsExtractor.extract.
The _seen_imports set of the source is, invariantly, exactly the set of
entries of the imports accumulator, so membership is tested there. -/
def step (siblings : List Node)
    (st : List String × List ClassSkeleton × List FunctionSig) (p : Nat × Node) :
    List String × List ClassSkeleton × List FunctionSig :=
  let idx := p.1
  let child := p.2
  if child.type == "import_statement" then
    match importOf child with
    | some raw =>
      if st.1.contains raw then st else (st.1 ++ [raw], st.2.1, st.2.2)
    | none => st
  else if child.type == "class_declaration" then
    (st.1, st.2.1 ++ [_extract_class child (_preceding_doc siblings idx)], st.2.2)
  else if child.type == "function_declaration" || child.type == "generator_function_declaration" then
    (st.1, st.2.1, st.2.2 ++ [_extract_function child (_preceding_doc siblings idx)])
  else if child.type == "export_statement" then
    match child.children.find? (fun sub => sub.type == "class_declaration"
        || sub.type == "function_declaration" || sub.type == "generator_function_declaration") with
    | some sub =>
      if sub.type == "class_declaration" then
        (st.1, st.2.1 ++ [_extract_class sub (_preceding_doc siblings idx)], st.2.2)
      else
        (st.1, st.2.1, st.2.2 ++ [_extract_function sub (_preceding_doc siblings idx)])
    | none => st
  else if child.type == "lexical_declaration" then
    (st.1, st.2.1, st.2.2 ++ lexicalFns siblings idx child)
  else st

/-- JsTsExtractor.extract; lang_name is "JavaScript" or "TypeScript". -/
def extract (lang_name : String) (file_name : String) (root : Node) : CodeSkeleton :=
  let siblings := root.children
  let res := siblings.enum.foldl (step siblings) ([], [], [])
  { file_name := file_name, language := lang_name, module_doc := "",
    imports := res.1, classes := res.2.1, functions := res.2.2 }

end JsTs

namespace Java

/-- java.py _parse_block_comment: strip the Javadoc markers and leading stars,
keep the non-empty lines. -/
def _parse_block_comment (raw0 : String) : String :=
  let raw := pyStrip raw0
  let raw := if pyStartsWith raw "/**" then pyDrop raw 3
             else if pyStartsWith raw "/*" then pyDrop raw 2
             else raw
  let raw := if pyEndsWith raw "*/" then pyDropRight raw 2 else raw
  let lines := (pySplitNl raw).map (fun l =>
    pyStrip (String.mk ((pyStrip l).data.dropWhile (fun c => c == '*'))))
  pyStrip (pyJoin "\n" (lines.filter (fun l => l != "")))

/-- java.py _preceding_doc: the block_comment immediately before siblings[idx]. -/
def _preceding_doc (siblings : List Node) (idx : Nat) : String :=
  if idx == 0 then ""
  else
    match siblings.get? (idx - 1) with
    | none => ""
    | some prev =>
      if prev.type == "block_comment" then _parse_block_comment prev.text else ""

/-- One iteration of the child loop in java.py _extract_method, carrying
(name, params, return_type); the name is only taken once a return type was
seen, as in the source. -/
def methodScanStep (st : String × String × String) (child : Node) : String × String × String :=
  if child.type == "identifier" && st.1 == "" then
    if st.2.2 != "" then (child.text, st.2.1, st.2.2) else st
  else if child.type == "type_identifier" || child.type == "void_type"
      || child.type == "integral_type" || child.type == "floating_point_type"
      || child.type == "boolean_type" || child.type == "array_type"
      || child.type == "generic_type" then
    if st.2.2 == "" then (st.1, st.2.1, child.text) else st
  else if child.type == "formal_parameters" then (st.1, stripParens child.text, st.2.2)
  else st

/-- java.py _extract_method. -/
def _extract_method (node : Node) (docstring : String) : FunctionSig :=
  let st := node.children.foldl methodScanStep ("", "", "")
  ⟨st.1, st.2.1, st.2.2, docstring⟩

/-- State of the child loop in java.py _extract_class. -/
structure ClassAcc where
  name : String
  bases : List String
  body : Option Node

/-- One iteration of the child loop in java.py _extract_class. -/
def classStep (st : ClassAcc) (child : Node) : ClassAcc :=
  if (child.type == "type_identifier" || child.type == "identifier") && st.name == "" then
    { st with name := child.text }
  else if child.type == "superclass" then
    { st with bases := st.bases ++ child.children.flatMap (fun sub =>
        if sub.type == "type_identifier" then [sub.text] else []) }
  else if child.type == "super_interfaces" then
    { st with bases := st.bases ++ child.children.flatMap (fun sub =>
        if sub.type == "type_list" then
          sub.children.flatMap (fun s2 =>
            if s2.type == "type_identifier" then [s2.text] else [])
        else []) }
  else if child.type == "class_body" then { st with body := some child }
  else st

/-- The loop over a class body collecting methods and constructors. -/
def methodStep (siblings : List Node) (acc : List FunctionSig) (p : Nat × Node) :
    List FunctionSig :=
  if p.2.type == "method_declaration" || p.2.type == "constructor_declaration" then
    acc ++ [_extract_method p.2 (_preceding_doc siblings p.1)]
  else acc

/-- java.py _extract_class. -/
def _extract_class (node : Node) (docstring : String) : ClassSkeleton :=
  let st := node.children.foldl classStep ⟨"", [], none⟩
  let methods := match st.body with
    | none => []
    | some b => b.children.enum.foldl (methodStep b.children) []
  ⟨st.name, st.bases, docstring, methods⟩

/-- The imports contributed by one import_declaration. -/
def importsOf (child : Node) : List String :=
  child.children.flatMap (fun sub =>
    if sub.type == "scoped_identifier" then [sub.text]
    else if sub.type == "identifier" then [sub.text]
    else [])

/-- One iteration of the top-level sibling loop of JavaExtractor.extract,
carrying (imports, classes); Java surfaces no top-level functions. -/
def step (siblings : List Node) (st : List String × List ClassSkeleton) (p : Nat × Node) :
    List String × List ClassSkeleton :=
  let idx := p.1
  let child := p.2
  if child.type == "import_declaration" then (st.1 ++ importsOf child, st.2)
  else if child.type == "class_declaration" || child.type == "interface_declaration"
      || child.type == "enum_declaration" then
    (st.1, st.2 ++ [_extract_class child (_preceding_doc siblings idx)])
  else st

/-- JavaExtractor.extract. -/
def extract (file_name : String) (root : Node) : CodeSkeleton :=
  let siblings := root.children
  let res := siblings.enum.foldl (step siblings) ([], [])
  { file_name := file_name, language := "Java", module_doc := "",
    imports := res.1, classes := res.2, functions := [] }

end Java

namespace Cpp

/-- cpp.py _parse_block_comment (same shape as the Java one). -/
def _parse_block_comment (raw0 : String) : String :=
  let raw := pyStrip raw0
  let raw := if pyStartsWith raw "/**" then pyDrop raw 3
             else if pyStartsWith raw "/*" then pyDrop raw 2
             else raw
  let raw := if pyEndsWith raw "*/" then pyDropRight raw 2 else raw
  let lines := (pySplitNl raw).map (fun l =>
    pyStrip (String.mk ((pyStrip l).data.dropWhile (fun c => c == '*'))))
  pyStrip (pyJoin "\n" (lines.filter (fun l => l != "")))

/-- cpp.py _preceding_doc: the comment immediately before siblings[idx]. -/
def _preceding_doc (siblings : List Node) (idx : Nat) : String :=
  if idx == 0 then ""
  else
    match siblings.get? (idx - 1) with
    | none => ""
    | some prev =>
      if prev.type == "comment" then _parse_block_comment prev.text else ""

mutual

/-- cpp.py _extract_function_declarator: recover (name, params) from a
function_declarator, recursing into nested declarators. -/
def _extract_function_declarator : Node → String × String
  | .mk _ _ children => fdGo children "" ""
termination_by n => sizeOf n

/-- The child loop of _extract_function_declarator. -/
def fdGo : List Node → String → String → String × String
  | [], name, params => (name, params)
  | child :: rest, name, params =>
    if (child.type == "identifier" || child.type == "field_identifier") && name == "" then
      fdGo rest child.text params
    else if child.type == "qualified_identifier" && name == "" then
      fdGo rest child.text params
    else if child.type == "function_declarator" then
      let np := _extract_function_declarator child
      fdGo rest (if np.1 != "" then np.1 else name) (if np.2 != "" then np.2 else params)
    else if child.type == "parameter_list" then
      fdGo rest name (stripParens child.text)
    else fdGo rest name params
termination_by l _ _ => sizeOf l

end

/-- State of the child loop in cpp.py _extract_function. -/
structure FnAcc where
  name : String
  params : String
  return_type : String

/-- One iteration of the child loop in cpp.py _extract_function. -/
def fnStep (st : FnAcc) (child : Node) : FnAcc :=
  if child.type == "function_declarator" then
    let np := _extract_function_declarator child
    { st with name := np.1, params := np.2 }
  else if child.type == "type_specifier" || child.type == "primitive_type"
      || child.type == "type_identifier" || child.type == "qualified_identifier"
      || child.type == "auto" then
    if st.return_type == "" then { st with return_type := child.text } else st
  else if child.type == "pointer_declarator" then
    child.children.foldl (fun acc sub =>
      if sub.type == "function_declarator" then
        let np := _extract_function_declarator sub
        { acc with name := np.1, params := np.2 }
      else acc) st
  else st

/-- cpp.py _extract_function. -/
def _extract_function (node : Node) (docstring : String) : FunctionSig :=
  let st := node.children.foldl fnStep ⟨"", "", ""⟩
  ⟨st.name, st.params, st.return_type, docstring⟩

/-- The scan over a declaration or field_declaration in a class body:
first type-ish child is the return type, first function_declarator gives
name and params and stops the scan. -/
def declScan : List Node → String → String × String × String
  | [], ret => (ret, "", "")
  | sub :: rest, ret =>
    if (sub.type == "type_specifier" || sub.type == "primitive_type"
        || sub.type == "type_identifier" || sub.type == "qualified_identifier")
        && ret == "" then
      declScan rest sub.text
    else if sub.type == "function_declarator" then
      let np := _extract_function_declarator sub
      (ret, np.1, np.2)
    else declScan rest ret

/-- State of the child loop in cpp.py _extract_class. -/
structure ClassAcc where
  name : String
  bases : List String
  body : Option Node

/-- One iteration of the child loop in cpp.py _extract_class. -/
def classStep (st : ClassAcc) (child : Node) : ClassAcc :=
  if child.type == "type_identifier" && st.name == "" then { st with name := child.text }
  else if child.type == "base_class_clause" then
    { st with bases := st.bases ++ child.children.flatMap (fun sub =>
        if sub.type == "type_identifier" then [sub.text] else []) }
  else if child.type == "field_declaration_list" then { st with body := some child }
  else st

/-- The loop over a class body collecting methods from function_definitions
and from declarations carrying a function_declarator. -/
def methodStep (siblings : List Node) (acc : List FunctionSig) (p : Nat × Node) :
    List FunctionSig :=
  let idx := p.1
  let child := p.2
  if child.type == "function_definition" then
    acc ++ [_extract_function child (_preceding_doc siblings idx)]
  else if child.type == "declaration" || child.type == "field_declaration" then
    let scan := declScan child.children ""
    if scan.2.1 != "" then
      acc ++ [⟨scan.2.1, scan.2.2, scan.1, _preceding_doc siblings idx⟩]
    else acc
  else acc

/-- cpp.py _extract_class. -/
def _extract_class (node : Node) (docstring : String) : ClassSkeleton :=
  let st := node.children.foldl classStep ⟨"", [], none⟩
  let methods := match st.body with
    | none => []
    | some b => b.children.enum.foldl (methodStep b.children) []
  ⟨st.name, st.bases, docstring, methods⟩

/-- The imports contributed by one preproc_include. -/
def importsOf (child : Node) : List String :=
  child.children.flatMap (fun sub =>
    if sub.type == "string_literal" || sub.type == "system_lib_string" then
      [pyStripChars ['"', '<', '>'] (pyStrip sub.text)]
    else [])

/-- The loop over one namespace declaration_list, appending flattened classes
and functions (exactly one nesting level). -/
def nsInnerStep (inner : List Node)
    (st : List ClassSkeleton × List FunctionSig) (p : Nat × Node) :
    List ClassSkeleton × List FunctionSig :=
  let idx := p.1
  let s2 := p.2
  if s2.type == "class_specifier" || s2.type == "struct_specifier" then
    (st.1 ++ [_extract_class s2 (_preceding_doc inner idx)], st.2)
  else if s2.type == "function_definition" then
    (st.1, st.2 ++ [_extract_function s2 (_preceding_doc inner idx)])
  else st

/-- One iteration of the top-level sibling loop of CppExtractor.extract. -/
def step (siblings : List Node)
    (st : List String × List ClassSkeleton × List FunctionSig) (p : Nat × Node) :
    List String × List ClassSkeleton × List FunctionSig :=
  let idx := p.1
  let child := p.2
  if child.type == "preproc_include" then (st.1 ++ importsOf child, st.2.1, st.2.2)
  else if child.type == "class_specifier" || child.type == "struct_specifier" then
    (st.1, st.2.1 ++ [_extract_class child (_preceding_doc siblings idx)], st.2.2)
  else if child.type == "function_definition" then
    (st.1, st.2.1, st.2.2 ++ [_extract_function child (_preceding_doc siblings idx)])
  else if child.type == "namespace_definition" then
    let cf := child.children.foldl (fun (acc : List ClassSkeleton × List FunctionSig) sub =>
      if sub.type == "declaration_list" then
        sub.children.enum.foldl (nsInnerStep sub.children) acc
      else acc) (st.2.1, st.2.2)
    (st.1, cf.1, cf.2)
  else st

/-- CppExtractor.extract. -/
def extract (file_name : String) (root : Node) : CodeSkeleton :=
  let siblings := root.children
  let res := siblings.enum.foldl (step siblings) ([], [], [])
  { file_name := file_name, language := "C/C++", module_doc := "",
    imports := res.1, classes := res.2.1, functions := res.2.2 }

end Cpp

/-- Modelled from the spec: the registry module (extractor.py, absent from
the sources at hand) dispatches on a closed set of language identities, one
per adapter. -/
inductive LangId where
  | python
  | javascript
  | typescript
  | java
  | cpp
  | rust
  | go
deriving DecidableEq

/-- The display name each adapter writes into CodeSkeleton.language
(taken from the adapter sources). -/
def displayName : LangId → String
  | .python => "Python"
  | .javascript => "JavaScript"
  | .typescript => "TypeScript"
  | .java => "Java"
  | .cpp => "C/C++"
  | .rust => "Rust"
  | .go => "Go"

/-- Modelled from the spec: the required extension-to-language mapping of
section 6, reproduced verbatim. -/
def ext_language_map : List (String × LangId) :=
  [(".py", .python),
   (".js", .javascript), (".jsx", .javascript), (".mjs", .javascript),
   (".ts", .typescript), (".tsx", .typescript),
   (".java", .java),
   (".c", .cpp), (".h", .cpp), (".cc", .cpp), (".cpp", .cpp), (".cxx", .cpp), (".hpp", .cpp),
   (".rs", .rust), (".go", .go)]

/-- Modelled from the spec: the file's extension, lowercased (the mapping is
case-insensitive); a name without a dot has no extension. -/
def extOf (file_name : String) : String :=
  let parts := splitOnChar '.' file_name.data
  if parts.length ≤ 1 then ""
  else "." ++ pyLower (String.mk (parts.getLastD []))

/-- Modelled from the spec: registry lookup; an unrecognized extension yields
the absence signal. -/
def language_for (file_name : String) : Option LangId :=
  (ext_language_map.find? (fun p => p.1 == extOf file_name)).map (fun p => p.2)

/-- Modelled from the spec: the public facade extract_skeleton of
extractor.py. Adapter availability (the backing grammar loaded) is the
`avail` predicate; a run of the selected adapter either returns a skeleton or
raises, modelled by Except. The facade converts every failure into `none`. -/
def extract_skeleton (avail : LangId → Bool)
    (run : LangId → String → String → Except String CodeSkeleton)
    (file_name content : String) (verbose : Bool) : Option String :=
  match language_for file_name with
  | none => none
  | some lang =>
    if avail lang then
      match run lang file_name content with
      | .ok sk => some (sk.to_text verbose)
      | .error _ => none
    else none

/-- Modelled from the spec: the dispatch of a selected language to its
adapter's extract (the adapters themselves are embedded from the sources);
the tree-sitter parse of the content is the `root` argument. -/
def run_adapter (lang : LangId) (file_name : String) (root : Node) : CodeSkeleton :=
  match lang with
  | .python => Python.extract file_name root
  | .javascript => JsTs.extract "JavaScript" file_name root
  | .typescript => JsTs.extract "TypeScript" file_name root
  | .java => Java.extract file_name root
  | .cpp => Cpp.extract file_name root
  | .rust => Rust.extract file_name root
  | .go => Go.extract file_name root

/-! Generic laws about the append-only folds that embed the source's
list-building loops: such a fold is the in-order concatenation of the
per-element contributions, which is exactly declaration-order preservation. -/

theorem foldl_single_append_law {α β : Type} (step : List β → α → List β) (f : α → List β)
    (hstep : ∀ st a, step st a = st ++ f a) :
    ∀ (l : List α) (st : List β), l.foldl step st = st ++ l.flatMap f := by
  intro l
  induction l with
  | nil => intro st; simp
  | cons a t ih => intro st; simp [hstep, ih, List.append_assoc]

theorem foldl_pair_append_law {α β γ : Type}
    (step : (List β × List γ) → α → (List β × List γ))
    (f : α → List β) (g : α → List γ)
    (hstep : ∀ st a, step st a = (st.1 ++ f a, st.2 ++ g a)) :
    ∀ (l : List α) (st : List β × List γ),
      l.foldl step st = (st.1 ++ l.flatMap f, st.2 ++ l.flatMap g) := by
  intro l
  induction l with
  | nil => intro st; simp
  | cons a t ih => intro st; simp [hstep, ih, List.append_assoc]

theorem foldl_triple_append_law {α β γ δ : Type}
    (step : (List β × List γ × List δ) → α → (List β × List γ × List δ))
    (f : α → List β) (g : α → List γ) (h : α → List δ)
    (hstep : ∀ st a, step st a = (st.1 ++ f a, st.2.1 ++ g a, st.2.2 ++ h a)) :
    ∀ (l : List α) (st : List β × List γ × List δ),
      l.foldl step st = (st.1 ++ l.flatMap f, st.2.1 ++ l.flatMap g, st.2.2 ++ l.flatMap h) := by
  intro l
  induction l with
  | nil => intro st; simp
  | cons a t ih => intro st; simp [hstep, ih, List.append_assoc]

/-- The serializer's class block, decomposed: signature line, doc block,
methods in stored order, blank separator. -/
theorem classLines_decomp (v : Bool) (cls : ClassSkeleton) :
    classLines v cls =
      ["class " ++ cls.name ++
        (if cls.bases != ([] : List String) then "(" ++ pyJoin ", " cls.bases ++ ")" else "")]
        ++ _doc v cls.docstring "  "
        ++ cls.methods.flatMap (methodLines v)
        ++ [""] := by
  have h := foldl_single_append_law
    (fun acc method => acc ++ methodLines v method) (methodLines v) (fun _ _ => rfl)
  simp [classLines, h, List.append_assoc]

/-- The serializer's full line list, decomposed: header, module doc, imports,
separator, class blocks in stored order, then function blocks in stored
order. -/
theorem toLines_decomp (sk : CodeSkeleton) (v : Bool) :
    sk.toLines v =
      ["# " ++ sk.file_name ++ " [" ++ sk.language ++ "]"]
        ++ (if sk.module_doc != "" then
              ["module: \"" ++ pyStrip ((pySplitNl sk.module_doc).headD "") ++ "\""]
            else [])
        ++ (if sk.imports != ([] : List String) then
              ["imports: " ++ pyJoin ", " sk.imports]
            else [])
        ++ [""]
        ++ sk.classes.flatMap (classLines v)
        ++ sk.functions.flatMap (fnLines v) := by
  have hc := foldl_single_append_law
    (fun acc cls => acc ++ classLines v cls) (classLines v) (fun _ _ => rfl)
  have hf := foldl_single_append_law
    (fun acc fn => acc ++ fnLines v fn) (fnLines v) (fun _ _ => rfl)
  simp [CodeSkeleton.toLines, hc, hf, List.append_assoc]

/-! Per-child contributions of the Go top-level loop. -/

def goImportContrib (child : Node) : List String :=
  if child.type == "import_declaration" then Go.importsOf child
  else if child.type == "function_declaration" || child.type == "method_declaration" then []
  else if child.type == "type_declaration" then []
  else []

def goClassContrib (siblings : List Node) (p : Nat × Node) : List ClassSkeleton :=
  if p.2.type == "import_declaration" then []
  else if p.2.type == "function_declaration" || p.2.type == "method_declaration" then []
  else if p.2.type == "type_declaration" then Go.typeSpecClasses siblings p.1 p.2
  else []

def goFnContrib (siblings : List Node) (p : Nat × Node) : List FunctionSig :=
  if p.2.type == "import_declaration" then []
  else if p.2.type == "function_declaration" || p.2.type == "method_declaration" then
    [Go._extract_function p.2 (Go._preceding_doc siblings p.1)]
  else if p.2.type == "type_declaration" then []
  else []

theorem go_step_shape (siblings : List Node)
    (st : List String × List ClassSkeleton × List FunctionSig) (p : Nat × Node) :
    Go.step siblings st p =
      (st.1 ++ goImportContrib p.2,
       st.2.1 ++ goClassContrib siblings p,
       st.2.2 ++ goFnContrib siblings p) := by
  simp only [Go.step, goImportContrib, goClassContrib, goFnContrib]
  repeat' split
  all_goals simp

/-- GoExtractor.extract preserves declaration order: each of the three
output sequences is the in-order concatenation of the per-sibling
contributions. -/
theorem go_extract_decomp (fn : String) (root : Node) :
    (Go.extract fn root).imports = root.children.enum.flatMap (fun p => goImportContrib p.2) ∧
    (Go.extract fn root).classes = root.children.enum.flatMap (goClassContrib root.children) ∧
    (Go.extract fn root).functions = root.children.enum.flatMap (goFnContrib root.children) := by
  have h := foldl_triple_append_law (Go.step root.children)
    (fun p => goImportContrib p.2) (goClassContrib root.children) (goFnContrib root.children)
    (go_step_shape root.children) root.children.enum ([], [], [])
  simp [Go.extract, h]

/-! Per-child contributions of the Rust top-level loop and impl-body loop. -/

def rustImportContrib (child : Node) : List String :=
  if child.type == "use_declaration" then [Rust.useImport child]
  else if child.type == "struct_item" || child.type == "trait_item" || child.type == "enum_item" then []
  else if child.type == "impl_item" then []
  else if child.type == "function_item" then []
  else []

def rustClassContrib (siblings : List Node) (p : Nat × Node) : List ClassSkeleton :=
  if p.2.type == "use_declaration" then []
  else if p.2.type == "struct_item" || p.2.type == "trait_item" || p.2.type == "enum_item" then
    [Rust._extract_struct_or_trait p.2 (Rust._preceding_doc siblings p.1)]
  else if p.2.type == "impl_item" then [Rust._extract_impl p.2]
  else if p.2.type == "function_item" then []
  else []

def rustFnContrib (siblings : List Node) (p : Nat × Node) : List FunctionSig :=
  if p.2.type == "use_declaration" then []
  else if p.2.type == "struct_item" || p.2.type == "trait_item" || p.2.type == "enum_item" then []
  else if p.2.type == "impl_item" then []
  else if p.2.type == "function_item" then
    [Rust._extract_function p.2 (Rust._preceding_doc siblings p.1)]
  else []

theorem rust_step_shape (siblings : List Node)
    (st : List String × List ClassSkeleton × List FunctionSig) (p : Nat × Node) :
    Rust.step siblings st p =
      (st.1 ++ rustImportContrib p.2,
       st.2.1 ++ rustClassContrib siblings p,
       st.2.2 ++ rustFnContrib siblings p) := by
  simp only [Rust.step, rustImportContrib, rustClassContrib, rustFnContrib]
  repeat' split
  all_goals simp

/-- RustExtractor.extract preserves declaration order in all three output
sequences. -/
theorem rust_extract_decomp (fn : String) (root : Node) :
    (Rust.extract fn root).imports = root.children.enum.flatMap (fun p => rustImportContrib p.2) ∧
    (Rust.extract fn root).classes = root.children.enum.flatMap (rustClassContrib root.children) ∧
    (Rust.extract fn root).functions = root.children.enum.flatMap (rustFnContrib root.children) := by
  have h := foldl_triple_append_law (Rust.step root.children)
    (fun p => rustImportContrib p.2) (rustClassContrib root.children) (rustFnContrib root.children)
    (rust_step_shape root.children) root.children.enum ([], [], [])
  simp [Rust.extract, h]

/-- Per-element contribution of the rust.py impl-body method loop. -/
def rustImplMethodContrib (siblings : List Node) (p : Nat × Node) : List FunctionSig :=
  if p.2.type == "function_item" then
    [Rust._extract_function p.2 (Rust._preceding_doc siblings p.1)]
  else []

theorem rust_impl_methods_decomp (siblings : List Node) (l : List (Nat × Node))
    (acc : List FunctionSig) :
    l.foldl (Rust.implMethodStep siblings) acc = acc ++ l.flatMap (rustImplMethodContrib siblings) := by
  refine foldl_single_append_law _ _ ?_ l acc
  intro st p
  simp only [Rust.implMethodStep, rustImplMethodContrib]
  split <;> simp

/-! Per-child contributions of the Python top-level loop and class-body
method loop. -/

def pyImportContrib (child : Node) : List String :=
  if child.type == "import_statement" || child.type == "import_from_statement" then
    Python._extract_imports child
  else if child.type == "class_definition" then []
  else if child.type == "function_definition" then []
  else if child.type == "decorated_definition" then []
  else []

def pyClassContrib (child : Node) : List ClassSkeleton :=
  if child.type == "import_statement" || child.type == "import_from_statement" then []
  else if child.type == "class_definition" then [Python._extract_class child]
  else if child.type == "function_definition" then []
  else if child.type == "decorated_definition" then
    match child.children.find?
        (fun s => s.type == "class_definition" || s.type == "function_definition") with
    | some sub => if sub.type == "class_definition" then [Python._extract_class sub] else []
    | none => []
  else []

def pyFnContrib (child : Node) : List FunctionSig :=
  if child.type == "import_statement" || child.type == "import_from_statement" then []
  else if child.type == "class_definition" then []
  else if child.type == "function_definition" then [Python._extract_function child]
  else if child.type == "decorated_definition" then
    match child.children.find?
        (fun s => s.type == "class_definition" || s.type == "function_definition") with
    | some sub => if sub.type == "class_definition" then [] else [Python._extract_function sub]
    | none => []
  else []

theorem py_step_shape (st : List String × List ClassSkeleton × List FunctionSig) (child : Node) :
    Python.step st child =
      (st.1 ++ pyImportContrib child,
       st.2.1 ++ pyClassContrib child,
       st.2.2 ++ pyFnContrib child) := by
  simp only [Python.step, pyImportContrib, pyClassContrib, pyFnContrib]
  repeat' split
  all_goals simp

/-- PythonExtractor.extract preserves declaration order in all three output
sequences. -/
theorem py_extract_decomp (fn : String) (root : Node) :
    (Python.extract fn root).imports = root.children.flatMap pyImportContrib ∧
    (Python.extract fn root).classes = root.children.flatMap pyClassContrib ∧
    (Python.extract fn root).functions = root.children.flatMap pyFnContrib := by
  have h := foldl_triple_append_law Python.step
    pyImportContrib pyClassContrib pyFnContrib py_step_shape root.children ([], [], [])
  simp [Python.extract, h]

/-- Per-element contribution of the python.py class-body method loop. -/
def pyMethodContrib (child : Node) : List FunctionSig :=
  if child.type == "function_definition" then [Python._extract_function child]
  else if child.type == "decorated_definition" then
    child.children.flatMap (fun sub =>
      if sub.type == "function_definition" then [Python._extract_function sub] else [])
  else []

theorem py_methods_decomp (l : List Node) (acc : List FunctionSig) :
    l.foldl Python.methodStep acc = acc ++ l.flatMap pyMethodContrib := by
  refine foldl_single_append_law _ _ ?_ l acc
  intro st child
  simp only [Python.methodStep, pyMethodContrib]
  repeat' split
  all_goals simp

/-! Per-child contributions of the Java top-level loop and class-body
method loop. -/

def javaImportContrib (child : Node) : List String :=
  if child.type == "import_declaration" then Java.importsOf child
  else if child.type == "class_declaration" || child.type == "interface_declaration"
      || child.type == "enum_declaration" then []
  else []

def javaClassContrib (siblings : List Node) (p : Nat × Node) : List ClassSkeleton :=
  if p.2.type == "import_declaration" then []
  else if p.2.type == "class_declaration" || p.2.type == "interface_declaration"
      || p.2.type == "enum_declaration" then
    [Java._extract_class p.2 (Java._preceding_doc siblings p.1)]
  else []

theorem java_step_shape (siblings : List Node)
    (st : List String × List ClassSkeleton) (p : Nat × Node) :
    Java.step siblings st p =
      (st.1 ++ javaImportContrib p.2, st.2 ++ javaClassContrib siblings p) := by
  simp only [Java.step, javaImportContrib, javaClassContrib]
  repeat' split
  all_goals simp

/-- JavaExtractor.extract preserves declaration order; the functions
sequence is always empty. -/
theorem java_extract_decomp (fn : String) (root : Node) :
    (Java.extract fn root).imports = root.children.enum.flatMap (fun p => javaImportContrib p.2) ∧
    (Java.extract fn root).classes = root.children.enum.flatMap (javaClassContrib root.children) ∧
    (Java.extract fn root).functions = [] := by
  have h := foldl_pair_append_law (Java.step root.children)
    (fun p => javaImportContrib p.2) (javaClassContrib root.children)
    (java_step_shape root.children) root.children.enum ([], [])
  simp [Java.extract, h]

/-- Per-element contribution of the java.py class-body method loop. -/
def javaMethodContrib (siblings : List Node) (p : Nat × Node) : List FunctionSig :=
  if p.2.type == "method_declaration" || p.2.type == "constructor_declaration" then
    [Java._extract_method p.2 (Java._preceding_doc siblings p.1)]
  else []

theorem java_methods_decomp (siblings : List Node) (l : List (Nat × Node))
    (acc : List FunctionSig) :
    l.foldl (Java.methodStep siblings) acc = acc ++ l.flatMap (javaMethodContrib siblings) := by
  refine foldl_single_append_law _ _ ?_ l acc
  intro st p
  simp only [Java.methodStep, javaMethodContrib]
  split <;> simp

/-! Per-child contributions of the JS/TS top-level loop.  The imports
accumulator deduplicates, so it is treated as its own scalar fold; classes
and functions are append-only as in the other adapters. -/

def jstsImportFoldStep (acc : List String) (p : Nat × Node) : List String :=
  if p.2.type == "import_statement" then
    match JsTs.importOf p.2 with
    | some raw => if acc.contains raw then acc else acc ++ [raw]
    | none => acc
  else acc

def jstsClassContrib (siblings : List Node) (p : Nat × Node) : List ClassSkeleton :=
  if p.2.type == "import_statement" then []
  else if p.2.type == "class_declaration" then
    [JsTs._extract_class p.2 (JsTs._preceding_doc siblings p.1)]
  else if p.2.type == "function_declaration" || p.2.type == "generator_function_declaration" then []
  else if p.2.type == "export_statement" then
    match p.2.children.find? (fun sub => sub.type == "class_declaration"
        || sub.type == "function_declaration" || sub.type == "generator_function_declaration") with
    | some sub =>
      if sub.type == "class_declaration" then
        [JsTs._extract_class sub (JsTs._preceding_doc siblings p.1)]
      else []
    | none => []
  else if p.2.type == "lexical_declaration" then []
  else []

def jstsFnContrib (siblings : List Node) (p : Nat × Node) : List FunctionSig :=
  if p.2.type == "import_statement" then []
  else if p.2.type == "class_declaration" then []
  else if p.2.type == "function_declaration" || p.2.type == "generator_function_declaration" then
    [JsTs._extract_function p.2 (JsTs._preceding_doc siblings p.1)]
  else if p.2.type == "export_statement" then
    match p.2.children.find? (fun sub => sub.type == "class_declaration"
        || sub.type == "function_declaration" || sub.type == "generator_function_declaration") with
    | some sub =>
      if sub.type == "class_declaration" then []
      else [JsTs._extract_function sub (JsTs._preceding_doc siblings p.1)]
    | none => []
  else if p.2.type == "lexical_declaration" then JsTs.lexicalFns siblings p.1 p.2
  else []

theorem jsts_step_shape (siblings : List Node)
    (st : List String × List ClassSkeleton × List FunctionSig) (p : Nat × Node) :
    (JsTs.step siblings st p).1 = jstsImportFoldStep st.1 p ∧
    (JsTs.step siblings st p).2.1 = st.2.1 ++ jstsClassContrib siblings p ∧
    (JsTs.step siblings st p).2.2 = st.2.2 ++ jstsFnContrib siblings p := by
  simp only [JsTs.step, jstsImportFoldStep, jstsClassContrib, jstsFnContrib]
  refine ⟨?_, ?_, ?_⟩ <;> (repeat' split) <;> simp

theorem jsts_fold_components (siblings : List Node) :
    ∀ (l : List (Nat × Node)) (st : List String × List ClassSkeleton × List FunctionSig),
      (l.foldl (JsTs.step siblings) st).1 = l.foldl jstsImportFoldStep st.1 ∧
      (l.foldl (JsTs.step siblings) st).2.1 = st.2.1 ++ l.flatMap (jstsClassContrib siblings) ∧
      (l.foldl (JsTs.step siblings) st).2.2 = st.2.2 ++ l.flatMap (jstsFnContrib siblings) := by
  intro l
  induction l with
  | nil => intro st; simp
  | cons p t ih =>
    intro st
    have hs := jsts_step_shape siblings st p
    have ht := ih (JsTs.step siblings st p)
    refine ⟨?_, ?_, ?_⟩
    · simp only [List.foldl_cons]
      rw [ht.1, hs.1]
    · simp only [List.foldl_cons, List.flatMap_cons]
      rw [ht.2.1, hs.2.1, List.append_assoc]
    · simp only [List.foldl_cons, List.flatMap_cons]
      rw [ht.2.2, hs.2.2, List.append_assoc]

/-- The JS/TS import fold keeps the accumulated list duplicate-free. -/
theorem jsts_import_fold_nodup :
    ∀ (l : List (Nat × Node)) (acc : List String), acc.Nodup →
      (l.foldl jstsImportFoldStep acc).Nodup := by
  intro l
  induction l with
  | nil => intro acc h; simpa using h
  | cons p t ih =>
    intro acc h
    simp only [List.foldl_cons]
    apply ih
    unfold jstsImportFoldStep
    split
    · split
      · split
        · exact h
        · rename_i raw _ hcont
          rw [List.nodup_append]
          refine ⟨h, List.nodup_singleton _, ?_⟩
          intro a ha hb
          simp only [List.mem_singleton] at hb
          subst hb
          exact hcont (List.elem_iff.mpr ha)
      · exact h
    · exact h

/-- Per-child occurrence list of JS/TS import strings, before dedup. -/
def jstsImportContrib (p : Nat × Node) : List String :=
  if p.2.type == "import_statement" then (JsTs.importOf p.2).toList else []

/-- The deduplicated JS/TS import fold is an order-preserving sublist of the
in-source-order occurrence list. -/
theorem jsts_import_fold_sublist :
    ∀ (l : List (Nat × Node)) (acc : List String),
      (l.foldl jstsImportFoldStep acc).Sublist (acc ++ l.flatMap jstsImportContrib) := by
  intro l
  induction l with
  | nil => intro acc; simp
  | cons p t ih =>
    intro acc
    simp only [List.foldl_cons, List.flatMap_cons]
    by_cases h1 : (p.2.type == "import_statement") = true
    · cases hfind : JsTs.importOf p.2 with
      | none =>
        simp only [jstsImportFoldStep, jstsImportContrib, h1, hfind, if_true]
        simpa using ih acc
      | some raw =>
        by_cases h2 : (acc.contains raw) = true
        · simp only [jstsImportFoldStep, jstsImportContrib, h1, hfind, h2, if_true]
          refine (ih acc).trans ?_
          exact List.Sublist.append_left (List.sublist_append_right _ _) acc
        · simp only [jstsImportFoldStep, jstsImportContrib, h1, hfind, h2, if_true, if_false]
          have := ih (acc ++ [raw])
          rw [List.append_assoc] at this
          simpa using this
    · simp only [jstsImportFoldStep, jstsImportContrib, h1]
      simpa using ih acc

/-- JsTsExtractor.extract, decomposed: classes and functions are in-order
concatenations; imports are the dedup fold over the in-order siblings. -/
theorem jsts_extract_decomp (lang fn : String) (root : Node) :
    (JsTs.extract lang fn root).imports = root.children.enum.foldl jstsImportFoldStep [] ∧
    (JsTs.extract lang fn root).classes =
      root.children.enum.flatMap (jstsClassContrib root.children) ∧
    (JsTs.extract lang fn root).functions =
      root.children.enum.flatMap (jstsFnContrib root.children) := by
  have h := jsts_fold_components root.children root.children.enum ([], [], [])
  exact ⟨h.1, by simpa using h.2.1, by simpa using h.2.2⟩

/-- The imports sequence of the JS/TS adapter never contains duplicates. -/
theorem jsts_extract_imports_nodup (lang fn : String) (root : Node) :
    (JsTs.extract lang fn root).imports.Nodup := by
  rw [(jsts_extract_decomp lang fn root).1]
  exact jsts_import_fold_nodup root.children.enum [] List.nodup_nil

/-- The imports sequence of the JS/TS adapter lists first occurrences in
source order: it is a sublist of the in-order occurrence list. -/
theorem jsts_extract_imports_sublist (lang fn : String) (root : Node) :
    (JsTs.extract lang fn root).imports.Sublist
      (root.children.enum.flatMap jstsImportContrib) := by
  rw [(jsts_extract_decomp lang fn root).1]
  simpa using jsts_import_fold_sublist root.children.enum []

/-- Per-element contribution of the js_ts.py class-body method loop. -/
def jstsMethodContrib (siblings : List Node) (p : Nat × Node) : List FunctionSig :=
  if p.2.type == "method_definition" then
    [JsTs._extract_function p.2 (JsTs._preceding_doc siblings p.1)]
  else if p.2.type == "public_field_definition" then
    match p.2.children.find? (fun sub => sub.type == "arrow_function") with
    | some sub =>
      let fn := JsTs._extract_function sub (JsTs._preceding_doc siblings p.1)
      match p.2.children.find?
          (fun s2 => s2.type == "property_identifier" || s2.type == "identifier") with
      | some s2 => [{ fn with name := s2.text }]
      | none => [fn]
    | none => []
  else []

theorem jsts_methods_decomp (siblings : List Node) (l : List (Nat × Node))
    (acc : List FunctionSig) :
    l.foldl (JsTs.methodStep siblings) acc = acc ++ l.flatMap (jstsMethodContrib siblings) := by
  refine foldl_single_append_law _ _ ?_ l acc
  intro st p
  simp only [JsTs.methodStep, jstsMethodContrib]
  repeat' split
  all_goals simp_all

/-! Per-child contributions of the C++ top-level loop, its namespace
flattening, and the class-body method loop. -/

def cppNsClassContrib (inner : List Node) (p : Nat × Node) : List ClassSkeleton :=
  if p.2.type == "class_specifier" || p.2.type == "struct_specifier" then
    [Cpp._extract_class p.2 (Cpp._preceding_doc inner p.1)]
  else if p.2.type == "function_definition" then []
  else []

def cppNsFnContrib (inner : List Node) (p : Nat × Node) : List FunctionSig :=
  if p.2.type == "class_specifier" || p.2.type == "struct_specifier" then []
  else if p.2.type == "function_definition" then
    [Cpp._extract_function p.2 (Cpp._preceding_doc inner p.1)]
  else []

theorem cpp_ns_inner_shape (inner : List Node)
    (st : List ClassSkeleton × List FunctionSig) (p : Nat × Node) :
    Cpp.nsInnerStep inner st p =
      (st.1 ++ cppNsClassContrib inner p, st.2 ++ cppNsFnContrib inner p) := by
  simp only [Cpp.nsInnerStep, cppNsClassContrib, cppNsFnContrib]
  repeat' split
  all_goals simp

/-- The flattened classes contributed by one namespace_definition. -/
def cppNsClasses (child : Node) : List ClassSkeleton :=
  child.children.flatMap (fun sub =>
    if sub.type == "declaration_list" then
      sub.children.enum.flatMap (cppNsClassContrib sub.children)
    else [])

/-- The flattened functions contributed by one namespace_definition. -/
def cppNsFns (child : Node) : List FunctionSig :=
  child.children.flatMap (fun sub =>
    if sub.type == "declaration_list" then
      sub.children.enum.flatMap (cppNsFnContrib sub.children)
    else [])

theorem cpp_ns_fold (child : Node) (st : List ClassSkeleton × List FunctionSig) :
    child.children.foldl (fun (acc : List ClassSkeleton × List FunctionSig) sub =>
        if sub.type == "declaration_list" then
          sub.children.enum.foldl (Cpp.nsInnerStep sub.children) acc
        else acc) st
      = (st.1 ++ cppNsClasses child, st.2 ++ cppNsFns child) := by
  have key : ∀ (acc : List ClassSkeleton × List FunctionSig) (sub : Node),
      (if sub.type == "declaration_list" then
        sub.children.enum.foldl (Cpp.nsInnerStep sub.children) acc
      else acc)
      = (acc.1 ++ (if sub.type == "declaration_list" then
            sub.children.enum.flatMap (cppNsClassContrib sub.children) else []),
         acc.2 ++ (if sub.type == "declaration_list" then
            sub.children.enum.flatMap (cppNsFnContrib sub.children) else [])) := by
    intro acc sub
    by_cases h : (sub.type == "declaration_list") = true
    · simp only [h, if_true]
      exact foldl_pair_append_law (Cpp.nsInnerStep sub.children)
        (cppNsClassContrib sub.children) (cppNsFnContrib sub.children)
        (cpp_ns_inner_shape sub.children) sub.children.enum acc
    · simp [h]
  have := foldl_pair_append_law _
    (fun sub => if sub.type == "declaration_list" then
      sub.children.enum.flatMap (cppNsClassContrib sub.children) else [])
    (fun sub => if sub.type == "declaration_list" then
      sub.children.enum.flatMap (cppNsFnContrib sub.children) else [])
    key child.children st
  simpa [cppNsClasses, cppNsFns] using this

def cppImportContrib (child : Node) : List String :=
  if child.type == "preproc_include" then Cpp.importsOf child
  else if child.type == "class_specifier" || child.type == "struct_specifier" then []
  else if child.type == "function_definition" then []
  else if child.type == "namespace_definition" then []
  else []

def cppClassContrib (siblings : List Node) (p : Nat × Node) : List ClassSkeleton :=
  if p.2.type == "preproc_include" then []
  else if p.2.type == "class_specifier" || p.2.type == "struct_specifier" then
    [Cpp._extract_class p.2 (Cpp._preceding_doc siblings p.1)]
  else if p.2.type == "function_definition" then []
  else if p.2.type == "namespace_definition" then cppNsClasses p.2
  else []

def cppFnContrib (siblings : List Node) (p : Nat × Node) : List FunctionSig :=
  if p.2.type == "preproc_include" then []
  else if p.2.type == "class_specifier" || p.2.type == "struct_specifier" then []
  else if p.2.type == "function_definition" then
    [Cpp._extract_function p.2 (Cpp._preceding_doc siblings p.1)]
  else if p.2.type == "namespace_definition" then cppNsFns p.2
  else []

theorem cpp_step_shape (siblings : List Node)
    (st : List String × List ClassSkeleton × List FunctionSig) (p : Nat × Node) :
    Cpp.step siblings st p =
      (st.1 ++ cppImportContrib p.2,
       st.2.1 ++ cppClassContrib siblings p,
       st.2.2 ++ cppFnContrib siblings p) := by
  simp only [Cpp.step, cppImportContrib, cppClassContrib, cppFnContrib]
  repeat' split
  all_goals try rw [cpp_ns_fold]
  all_goals simp

/-- CppExtractor.extract preserves declaration order in all three output
sequences, with namespaces flattened exactly one level in source order. -/
theorem cpp_extract_decomp (fn : String) (root : Node) :
    (Cpp.extract fn root).imports = root.children.enum.flatMap (fun p => cppImportContrib p.2) ∧
    (Cpp.extract fn root).classes = root.children.enum.flatMap (cppClassContrib root.children) ∧
    (Cpp.extract fn root).functions = root.children.enum.flatMap (cppFnContrib root.children) := by
  have h := foldl_triple_append_law (Cpp.step root.children)
    (fun p => cppImportContrib p.2) (cppClassContrib root.children) (cppFnContrib root.children)
    (cpp_step_shape root.children) root.children.enum ([], [], [])
  simp [Cpp.extract, h]

/-- Per-element contribution of the cpp.py class-body method loop. -/
def cppMethodContrib (siblings : List Node) (p : Nat × Node) : List FunctionSig :=
  if p.2.type == "function_definition" then
    [Cpp._extract_function p.2 (Cpp._preceding_doc siblings p.1)]
  else if p.2.type == "declaration" || p.2.type == "field_declaration" then
    let scan := Cpp.declScan p.2.children ""
    if scan.2.1 != "" then
      [⟨scan.2.1, scan.2.2, scan.1, Cpp._preceding_doc siblings p.1⟩]
    else []
  else []

theorem cpp_methods_decomp (siblings : List Node) (l : List (Nat × Node))
    (acc : List FunctionSig) :
    l.foldl (Cpp.methodStep siblings) acc = acc ++ l.flatMap (cppMethodContrib siblings) := by
  refine foldl_single_append_law _ _ ?_ l acc
  intro st p
  simp only [Cpp.methodStep, cppMethodContrib]
  repeat' split
  all_goals simp_all

/-! Facts about splitOnChar, stripping and joining, needed for the
serializer claims. -/

theorem splitOnChar_ne_nil (sep : Char) (l : List Char) : splitOnChar sep l ≠ [] := by
  cases l with
  | nil => simp [splitOnChar]
  | cons c rest =>
    by_cases h : (c == sep) = true
    · simp [splitOnChar, h]
    · simp [splitOnChar, h]

theorem splitOnChar_length_pos (sep : Char) (l : List Char) :
    1 ≤ (splitOnChar sep l).length := by
  cases hs : splitOnChar sep l with
  | nil => exact absurd hs (splitOnChar_ne_nil sep l)
  | cons a t => simp

theorem splitOnChar_not_mem (sep : Char) (l : List Char) (h : ¬ sep ∈ l) :
    splitOnChar sep l = [l] := by
  induction l with
  | nil => simp [splitOnChar]
  | cons c rest ih =>
    have hc : ¬ (c == sep) = true := by
      intro hb
      exact h (by simp [beq_iff_eq.mp hb])
    have hr : ¬ sep ∈ rest := fun hm => h (List.mem_cons_of_mem _ hm)
    simp [splitOnChar, hc, ih hr]

theorem splitOnChar_mem_not (sep : Char) (l : List Char) :
    ∀ x ∈ splitOnChar sep l, ¬ sep ∈ x := by
  induction l with
  | nil => simp [splitOnChar]
  | cons c rest ih =>
    intro x hx
    by_cases h : (c == sep) = true
    · simp only [splitOnChar, h, if_true, List.mem_cons] at hx
      rcases hx with hx | hx
      · subst hx; simp
      · exact ih x hx
    · simp only [splitOnChar, h, if_false, Bool.false_eq_true, List.mem_cons] at hx
      rcases hx with hx | hx
      · subst hx
        intro hm
        rcases List.mem_cons.mp hm with hm | hm
        · exact h (by simp [hm])
        · cases hs : splitOnChar sep rest with
          | nil => exact absurd hs (splitOnChar_ne_nil sep rest)
          | cons a t =>
            rw [hs] at hm
            exact ih a (by simp [hs]) (by simpa using hm)
      · exact ih x (List.mem_of_mem_tail hx)

theorem splitOnChar_append_headD (sep : Char) (l₁ l₂ : List Char) (h : ¬ sep ∈ l₁) :
    (splitOnChar sep (l₁ ++ l₂)).headD [] = l₁ ++ (splitOnChar sep l₂).headD [] := by
  induction l₁ with
  | nil => simp
  | cons c rest ih =>
    have hc : ¬ (c == sep) = true := by
      intro hb
      exact h (by simp [beq_iff_eq.mp hb])
    have hr : ¬ sep ∈ rest := fun hm => h (List.mem_cons_of_mem _ hm)
    simp only [List.cons_append, splitOnChar, hc, Bool.false_eq_true, if_false, List.headD_cons,
      List.append_eq]
    rw [ih hr]

theorem splitOnChar_sep_length (sep : Char) (l : List Char) (h : sep ∈ l) :
    2 ≤ (splitOnChar sep l).length := by
  induction l with
  | nil => simp at h
  | cons c rest ih =>
    by_cases hc : (c == sep) = true
    · simp only [splitOnChar, hc, if_true, List.length_cons]
      have := splitOnChar_length_pos sep rest
      omega
    · have hr : sep ∈ rest := by
        rcases List.mem_cons.mp h with h1 | h1
        · exact absurd (by simp [h1]) hc
        · exact h1
      simp only [splitOnChar, hc, Bool.false_eq_true, if_false, List.length_cons,
        List.length_tail]
      have := ih hr
      omega

theorem mem_dropTrailing {p : Char → Bool} {c : Char} {l : List Char}
    (h : c ∈ dropTrailing p l) : c ∈ l := by
  unfold dropTrailing at h
  rw [List.mem_reverse] at h
  have := (List.dropWhile_sublist p).mem h
  rwa [List.mem_reverse] at this

theorem mem_stripBoth {p : Char → Bool} {c : Char} {l : List Char}
    (h : c ∈ stripBoth p l) : c ∈ l := by
  unfold stripBoth at h
  exact (List.dropWhile_sublist p).mem (mem_dropTrailing h)

theorem dropTrailing_append_last (p : Char → Bool) (x : List Char) (c : Char) (y : List Char)
    (h : p c = false) :
    dropTrailing p ((x ++ [c]) ++ y) = (x ++ [c]) ++ dropTrailing p y := by
  unfold dropTrailing
  rw [List.reverse_append, List.dropWhile_append]
  by_cases he : (List.dropWhile p y.reverse).isEmpty = true
  · rw [if_pos he]
    have hy : (y.reverse.dropWhile p).reverse = [] := by
      rw [List.isEmpty_iff] at he
      simp [he]
    rw [hy, List.append_nil]
    have : (x ++ [c]).reverse = c :: x.reverse := by simp
    rw [this, List.dropWhile_cons_of_neg (by simp [h])]
    simp
  · rw [if_neg he]
    simp

theorem dropTrailing_prefix (p : Char → Bool) (l : List Char) :
    (dropTrailing p l).IsPrefix l := by
  unfold dropTrailing
  have := List.dropWhile_suffix (l := l.reverse) p
  rw [← List.reverse_prefix] at this
  simpa using this

theorem joinSep_cons (sep : List Char) (x : List Char) (xs : List (List Char)) (h : xs ≠ []) :
    joinSep sep (x :: xs) = x ++ sep ++ joinSep sep xs := by
  cases xs with
  | nil => exact absurd rfl h
  | cons a t => rfl

theorem string_mk_data (s : String) : String.mk s.data = s := rfl

theorem headD_map_mk (L : List (List Char)) (h : L ≠ []) :
    (L.map String.mk).headD "" = String.mk (L.headD []) := by
  cases L with
  | nil => exact absurd rfl h
  | cons a t => rfl

theorem stripBoth_wrap (p : Char → Bool) (x : List Char) (c0 c1 : Char) (y : List Char)
    (h0 : p c0 = false) (h1 : p c1 = false) :
    stripBoth p (((c0 :: x) ++ [c1]) ++ y) = ((c0 :: x) ++ [c1]) ++ dropTrailing p y := by
  unfold stripBoth
  have e1 : (((c0 :: x) ++ [c1]) ++ y) = c0 :: ((x ++ [c1]) ++ y) := by
    simp [List.append_assoc]
  rw [e1, List.dropWhile_cons, if_neg (by simp [h0])]
  have e2 : c0 :: ((x ++ [c1]) ++ y) = ((c0 :: x) ++ [c1]) ++ y := by
    simp [List.append_assoc]
  rw [e2, dropTrailing_append_last p (c0 :: x) c1 y h1]

/-- The first line of the serialized skeleton is exactly the header, for any
verbosity, provided the file name and language contain no newline. -/
theorem to_text_first_line (sk : CodeSkeleton) (v : Bool)
    (h1 : '\n' ∉ sk.file_name.data) (h2 : '\n' ∉ sk.language.data) :
    firstLine (sk.to_text v) = "# " ++ sk.file_name ++ " [" ++ sk.language ++ "]" := by
  have hdrdata2 : ("# " ++ sk.file_name ++ " [" ++ sk.language ++ "]").data
      = ['#', ' '] ++ sk.file_name.data ++ [' ', '['] ++ sk.language.data ++ [']'] := by
    simp only [String.data_append]
  have hhdr_nl : '\n' ∉ ("# " ++ sk.file_name ++ " [" ++ sk.language ++ "]").data := by
    rw [hdrdata2]
    intro hm
    rcases List.mem_append.mp hm with hm | hm
    · rcases List.mem_append.mp hm with hm | hm
      · rcases List.mem_append.mp hm with hm | hm
        · rcases List.mem_append.mp hm with hm | hm
          · simp at hm
          · exact h1 hm
        · simp at hm
      · exact h2 hm
    · simp at hm
  have htl : sk.toLines v
      = ("# " ++ sk.file_name ++ " [" ++ sk.language ++ "]")
          :: ((if sk.module_doc != "" then
                ["module: \"" ++ pyStrip ((pySplitNl sk.module_doc).headD "") ++ "\""]
              else [])
            ++ ((if sk.imports != ([] : List String) then
                  ["imports: " ++ pyJoin ", " sk.imports]
                else [])
              ++ ([""] ++ (sk.classes.flatMap (classLines v) ++ sk.functions.flatMap (fnLines v))))) := by
    rw [toLines_decomp]
    simp [List.append_assoc]
  set rest := (if sk.module_doc != "" then
                ["module: \"" ++ pyStrip ((pySplitNl sk.module_doc).headD "") ++ "\""]
              else [])
            ++ ((if sk.imports != ([] : List String) then
                  ["imports: " ++ pyJoin ", " sk.imports]
                else [])
              ++ ([""] ++ (sk.classes.flatMap (classLines v) ++ sk.functions.flatMap (fnLines v)))) with hrestdef
  have hrest : rest.map String.data ≠ [] := by
    rw [hrestdef]
    intro h0
    rw [List.map_eq_nil_iff] at h0
    simp only [List.append_eq_nil] at h0
    exact absurd h0.2.2.1 (by simp)
  have hjoin : (pyJoin "\n" (sk.toLines v)).data
      = ("# " ++ sk.file_name ++ " [" ++ sk.language ++ "]").data
          ++ '\n' :: joinSep ['\n'] (rest.map String.data) := by
    rw [htl]
    show (String.mk (joinSep "\n".data (List.map String.data (_ :: rest)))).data = _
    rw [List.map_cons, joinSep_cons _ _ _ hrest]
    simp [List.append_assoc]
  have hstrip : (sk.to_text v).data
      = ("# " ++ sk.file_name ++ " [" ++ sk.language ++ "]").data
          ++ dropTrailing pyIsSpace ('\n' :: joinSep ['\n'] (rest.map String.data)) := by
    have h0 : (sk.to_text v).data
        = stripBoth pyIsSpace (pyJoin "\n" (sk.toLines v)).data := rfl
    rw [h0, hjoin]
    have hA : ("# " ++ sk.file_name ++ " [" ++ sk.language ++ "]").data
        = ('#' :: (' ' :: (sk.file_name.data ++ ([' ', '['] ++ sk.language.data)))) ++ [']'] := by
      rw [hdrdata2]
      simp [List.append_assoc]
    rw [hA]
    exact stripBoth_wrap pyIsSpace _ '#' ']' _ (by decide) (by decide)
  have hpre := dropTrailing_prefix pyIsSpace ('\n' :: joinSep ['\n'] (rest.map String.data))
  unfold firstLine pySplitNl
  cases hT : dropTrailing pyIsSpace ('\n' :: joinSep ['\n'] (rest.map String.data)) with
  | nil =>
    rw [hstrip, hT, List.append_nil, splitOnChar_not_mem '\n' _ hhdr_nl]
    exact string_mk_data _
  | cons a T =>
    have ha : a = '\n' := by
      rw [hT] at hpre
      obtain ⟨s, hs⟩ := hpre
      rw [List.cons_append] at hs
      exact (List.cons.injEq _ _ _ _ ▸ hs).1
    subst ha
    rw [hstrip, hT]
    rw [headD_map_mk _ (splitOnChar_ne_nil _ _)]
    rw [splitOnChar_append_headD '\n' _ _ hhdr_nl]
    have hsp : splitOnChar '\n' ('\n' :: T) = [] :: splitOnChar '\n' T := by
      simp [splitOnChar]
    rw [hsp, List.headD_cons, List.append_nil]


/-! Support for the parameter-compaction claim: the claim's literal reading
and the amended behaviour. -/

/-- The claim's literal reading of parameter compaction: collapse whitespace
runs to one space, strip one trailing comma, nothing else. -/
def compact_params_claimed (params : String) : String :=
  let t := String.mk (wsCollapse params.data)
  if pyEndsWith t "," then pyDropRight t 1 else t

/-- Removing a trailing run satisfying p, by structural recursion (used to
state the amended compaction independently of the reverse-based embedding). -/
def dropEndWhile (p : Char → Bool) : List Char → List Char
  | [] => []
  | c :: rest =>
    let r := dropEndWhile p rest
    if r.isEmpty && p c then [] else c :: r

theorem dropEndWhile_eq (p : Char → Bool) : ∀ l, dropEndWhile p l = dropTrailing p l := by
  intro l
  induction l with
  | nil => simp [dropEndWhile, dropTrailing]
  | cons c rest ih =>
    have hrev : (c :: rest).reverse = rest.reverse ++ [c] := by simp
    unfold dropTrailing
    rw [hrev, List.dropWhile_append]
    by_cases he : (List.dropWhile p rest.reverse).isEmpty = true
    · rw [if_pos he]
      have hr : dropEndWhile p rest = [] := by
        rw [ih]
        unfold dropTrailing
        rw [List.isEmpty_iff] at he
        simp [he]
      by_cases hc : p c = true
      · simp [dropEndWhile, hr, hc, List.dropWhile_cons]
      · simp [dropEndWhile, hr, hc, List.dropWhile_cons]
    · rw [if_neg he]
      have hr : ¬ (dropEndWhile p rest).isEmpty = true := by
        rw [ih]
        unfold dropTrailing
        simpa using he
      simp only [dropEndWhile, hr, Bool.false_and, if_neg]
      rw [List.reverse_append, ih]
      unfold dropTrailing
      simp

/-- The amended compaction: collapse whitespace runs to a single space, then
strip leading and trailing whitespace, then strip leading and trailing
commas. -/
def compact_params_amended (params : String) : String :=
  String.mk (dropEndWhile (fun c => c == ',')
    (List.dropWhile (fun c => c == ',')
      (dropEndWhile pyIsSpace (List.dropWhile pyIsSpace (wsCollapse params.data)))))

theorem compact_params_amended_eq (params : String) :
    _compact_params params = compact_params_amended params := by
  unfold _compact_params compact_params_amended pyStripChars pyStrip stripBoth
  rw [dropEndWhile_eq, dropEndWhile_eq]
  have hfun : (fun c => List.contains [','] c) = (fun c => c == ',') := by
    funext c
    simp only [List.contains, List.elem_cons, List.elem_nil]
    cases hc : (c == ',') <;> simp [hc]
  rw [hfun]

/-- Every class the Go adapter builds from a type_spec carries no bases and
no methods. -/
theorem go_typeSpecClasses_empty (siblings : List Node) (idx : Nat) (child : Node) :
    ∀ x ∈ Go.typeSpecClasses siblings idx child, x.bases = [] ∧ x.methods = [] := by
  intro x hx
  unfold Go.typeSpecClasses at hx
  rw [List.mem_flatMap] at hx
  obtain ⟨sub, _, hsub⟩ := hx
  split at hsub
  · rw [List.mem_singleton] at hsub
    subst hsub
    exact ⟨rfl, rfl⟩
  · simp at hsub

/-! Concrete scenario trees (shapes follow the tree-sitter grammars). -/

/-- Scenario B source: a doc comment line followed by a Go method with a
receiver list (s *Server), parameters (a int, b int) and return type int. -/
def goScenarioRoot : Node :=
  .mk "source_file" ""
    [.mk "comment" "// Add does X." [],
     .mk "method_declaration" ""
       [.mk "func" "func" [],
        .mk "parameter_list" "(s *Server)" [],
        .mk "field_identifier" "Add" [],
        .mk "parameter_list" "(a int, b int)" [],
        .mk "type_identifier" "int" [],
        .mk "block" "" []]]

/-- Scenario D source: struct Foo and an impl Foo block holding one
doc-commented method new returning Self. -/
def rustScenarioRoot : Node :=
  .mk "source_file" ""
    [.mk "struct_item" ""
       [.mk "struct" "struct" [], .mk "type_identifier" "Foo" []],
     .mk "impl_item" ""
       [.mk "impl" "impl" [],
        .mk "type_identifier" "Foo" [],
        .mk "declaration_list" ""
          [.mk "line_comment" "/// Creates new" [.mk "doc_comment" " Creates new" []],
           .mk "function_item" ""
             [.mk "fn" "fn" [],
              .mk "identifier" "new" [],
              .mk "parameters" "()" [],
              .mk "type_identifier" "Self" [],
              .mk "block" "" []]]]]

/-- A Python module that repeats the same import statement twice. -/
def pyDupRoot : Node :=
  .mk "module" ""
    [.mk "import_statement" "import os"
       [.mk "import" "import" [], .mk "dotted_name" "os" []],
     .mk "import_statement" "import os"
       [.mk "import" "import" [], .mk "dotted_name" "os" []]]

/-- A Go file with one struct declaration, used to exhibit a class produced
by the Go adapter. -/
def goWitnessRoot : Node :=
  .mk "source_file" ""
    [.mk "type_declaration" ""
       [.mk "type" "type" [],
        .mk "type_spec" ""
          [.mk "type_identifier" "Server" [], .mk "struct_type" "" []]]]

/-! The claims. -/

/-- C1: the public facade extract_skeleton never raises: it is a total
function into an optional text.  It returns the absence value when the
extension is unrecognized, when the selected adapter is unavailable (its
grammar failed to load), and when the adapter raises during extraction; in
particular any file named notes.xyz yields the absence value. -/
theorem claim_C1_facade_absence (avail : LangId → Bool)
    (run : LangId → String → String → Except String CodeSkeleton)
    (fn content : String) (v : Bool) :
    (extract_skeleton avail run fn content v = none ∨
      ∃ s, extract_skeleton avail run fn content v = some s) ∧
    (language_for fn = none → extract_skeleton avail run fn content v = none) ∧
    (∀ lang, language_for fn = some lang → avail lang = false →
      extract_skeleton avail run fn content v = none) ∧
    (∀ lang e, language_for fn = some lang → run lang fn content = Except.error e →
      extract_skeleton avail run fn content v = none) ∧
    extract_skeleton avail run "notes.xyz" content v = none := by
  refine ⟨?_, ?_, ?_, ?_, ?_⟩
  · unfold extract_skeleton
    cases hl : language_for fn with
    | none => exact Or.inl rfl
    | some lang =>
      by_cases ha : avail lang = true
      · cases hr : run lang fn content with
        | ok sk => exact Or.inr ⟨(sk.to_text v), by simp [ha, hr]⟩
        | error e => exact Or.inl (by simp [ha, hr])
      · exact Or.inl (by simp [ha])
  · intro h0
    simp [extract_skeleton, h0]
  · intro lang hl ha
    simp [extract_skeleton, hl, ha]
  · intro lang e hl he
    simp only [extract_skeleton, hl, he]
    by_cases ha : avail lang = true <;> simp [ha]
  · have hx : language_for "notes.xyz" = none := by decide
    simp [extract_skeleton, hx]

theorem claim_C1_witness :
    extract_skeleton (fun _ => true) (fun _ _ _ => Except.error "boom") "a.py" "" false
      = none :=
  (claim_C1_facade_absence (fun _ => true) (fun _ _ _ => Except.error "boom")
    "a.py" "" false).2.2.2.1 LangId.python "boom" (by decide) rfl

/-- C2: for a Go method declaration the first (receiver) parameter list is
excluded and the second list is reported, for every receiver, parameter,
name and return-type text; concretely, a method with receiver (s *Server),
parameters (a int, b int), return type int and preceding line comment
slash-slash Add does X. yields params "a int, b int", return_type "int" and
docstring "Add does X.". -/
theorem claim_C2_receiver_exclusion :
    (∀ (kwT rcvT nm psT retT bT mT doc : String),
      Go._extract_function
        (Node.mk "method_declaration" mT
          [Node.mk "func" kwT [], Node.mk "parameter_list" rcvT [],
           Node.mk "field_identifier" nm [], Node.mk "parameter_list" psT [],
           Node.mk "type_identifier" retT [], Node.mk "block" bT []]) doc
        = ⟨nm, stripParens psT, retT, doc⟩) ∧
    (Go.extract "server.go" goScenarioRoot).functions
      = [⟨"Add", "a int, b int", "int", "Add does X."⟩] := by
  constructor
  · intro kwT rcvT nm psT retT bT mT doc
    rfl
  · rfl

/-- C3: a Rust impl block for a type T becomes a synthetic ClassSkeleton
named "impl T" holding the methods collected from its declaration_list,
while struct/trait/enum declarations never carry methods of their own;
concretely, impl Foo with a doc-commented method new returning Self yields
the class "impl Foo" with method new() -> Self and docstring
"Creates new", next to the method-free class Foo. -/
theorem claim_C3_impl_synthesis :
    (∀ (kwT tname dT nT : String) (body : List Node),
      Rust._extract_impl
        (Node.mk "impl_item" nT
          [Node.mk "impl" kwT [], Node.mk "type_identifier" tname [],
           Node.mk "declaration_list" dT body])
        = ⟨"impl " ++ tname, [], "", body.enum.foldl (Rust.implMethodStep body) []⟩) ∧
    (∀ (node : Node) (doc : String), (Rust._extract_struct_or_trait node doc).methods = []) ∧
    (Rust.extract "lib.rs" rustScenarioRoot).classes
      = [⟨"Foo", [], "", []⟩,
         ⟨"impl Foo", [], "", [⟨"new", "", "Self", "Creates new"⟩]⟩] := by
  refine ⟨?_, ?_, ?_⟩
  · intro kwT tname dT nT body
    rfl
  · intro node doc
    rfl
  · rfl

/-- C4 counterexample: the compaction is claimed to collapse whitespace,
strip a trailing comma and perform no other normalization; on ",a" the
code also strips the leading comma, so the claimed reading is false. -/
theorem claim_C4_counterexample :
    _compact_params ",a" = "a" ∧ compact_params_claimed ",a" = ",a" ∧
    _compact_params ",a" ≠ compact_params_claimed ",a" := by
  decide

/-- C4 (amended): parameter compaction collapses every whitespace run to a
single space, then strips leading and trailing whitespace, then strips
leading and trailing commas, and does nothing else; the raw text
"a,"-newline-spaces-"b" renders as "a, b". -/
theorem claim_C4_compaction_amended :
    (∀ params, _compact_params params = compact_params_amended params) ∧
    _compact_params "a,\n   b" = "a, b" := by
  refine ⟨compact_params_amended_eq, by decide⟩

/-- C5: in compact mode a non-empty docstring renders as a single line: the
docstring's first line (stripped), wrapped in triple-quote markers; no
newline appears in the rendered block, so a multi-line docstring yields
exactly one line between the markers. -/
theorem claim_C5_compact_first_line (raw indent : String) (h : raw ≠ "")
    (hi : '\n' ∉ indent.data) :
    _doc false raw indent
      = [indent ++ "\"\"\"" ++ pyStrip ((pySplitNl raw).headD "") ++ "\"\"\""] ∧
    ∀ s ∈ _doc false raw indent, '\n' ∉ s.data := by
  have hbe : (raw == "") = false := by
    rw [beq_eq_false_iff_ne]
    exact h
  have h1 : _doc false raw indent
      = [indent ++ "\"\"\"" ++ pyStrip ((pySplitNl raw).headD "") ++ "\"\"\""] := by
    unfold _doc
    rw [hbe]
    simp
  refine ⟨h1, ?_⟩
  intro s hs
  rw [h1, List.mem_singleton] at hs
  subst hs
  intro hm
  rw [String.data_append, String.data_append, String.data_append] at hm
  rcases List.mem_append.mp hm with hm | hm
  · rcases List.mem_append.mp hm with hm | hm
    · rcases List.mem_append.mp hm with hm | hm
      · exact hi hm
      · exact absurd hm (by decide)
    · have hm2 : '\n' ∈ ((pySplitNl raw).headD "").data := mem_stripBoth hm
      cases hsp : splitOnChar '\n' raw.data with
      | nil => exact splitOnChar_ne_nil '\n' raw.data hsp
      | cons a t =>
        have he : (pySplitNl raw).headD "" = String.mk a := by
          unfold pySplitNl
          rw [hsp]
          rfl
        rw [he] at hm2
        exact splitOnChar_mem_not '\n' raw.data a
          (by rw [hsp]; exact List.mem_cons_self a t) hm2
  · exact absurd hm (by decide)

theorem claim_C5_witness :
    _doc false "Does X.\nMore." "  " = ["  \"\"\"Does X.\"\"\""] := by
  rw [(claim_C5_compact_first_line "Does X.\nMore." "  " (by decide) (by decide)).1]
  decide

/-- C6: in verbose mode a docstring that is multi-line (after the overall
strip) renders in full: the first line follows the opening marker, every
further line is stripped and re-indented to the given indent, and the
closing marker sits on its own line; the rendered block has exactly one
line per docstring line plus the closing-marker line. -/
theorem claim_C6_verbose_full (raw indent : String) (h : '\n' ∈ (pyStrip raw).data) :
    _doc true raw indent
      = [indent ++ "\"\"\"" ++ (pySplitNl (pyStrip raw)).headD ""]
          ++ (pySplitNl (pyStrip raw)).tail.map (fun l => indent ++ pyStrip l)
          ++ [indent ++ "\"\"\""] ∧
    (_doc true raw indent).length = (pySplitNl (pyStrip raw)).length + 1 := by
  have hraw : (raw == "") = false := by
    rw [beq_eq_false_iff_ne]
    intro he
    subst he
    exact absurd h (by decide)
  have hlen : 2 ≤ (splitOnChar '\n' (pyStrip raw).data).length :=
    splitOnChar_sep_length '\n' _ h
  have hlenm : 2 ≤ (pySplitNl (pyStrip raw)).length := by
    unfold pySplitNl
    rw [List.length_map]
    exact hlen
  have hlen2 : ((pySplitNl (pyStrip raw)).length == 1) = false := by
    rw [beq_eq_false_iff_ne]
    omega
  have h1 : _doc true raw indent
      = [indent ++ "\"\"\"" ++ (pySplitNl (pyStrip raw)).headD ""]
          ++ (pySplitNl (pyStrip raw)).tail.map (fun l => indent ++ pyStrip l)
          ++ [indent ++ "\"\"\""] := by
    unfold _doc
    rw [hraw]
    simp only [Bool.false_eq_true, if_false, Bool.not_true, hlen2]
  refine ⟨h1, ?_⟩
  rw [h1]
  simp only [List.length_append, List.length_map, List.length_cons, List.length_nil,
    List.length_tail]
  omega

theorem claim_C6_witness :
    _doc true "Does X.\nMore." "  " = ["  \"\"\"Does X.", "  More.", "  \"\"\""] := by
  rw [(claim_C6_verbose_full "Does X.\nMore." "  " (by decide)).1]
  decide

/-- C7: for every file name with a recognized extension (and no newline in
the name), any parse tree and any verbosity, the first line of the
serialized skeleton is exactly "# file_name [Language]" where Language is
the display name of the language the registry selects for the extension. -/
theorem claim_C7_header_line (fn : String) (root : Node) (lang : LangId) (v : Bool)
    (hsel : language_for fn = some lang) (hfn : '\n' ∉ fn.data) :
    firstLine ((run_adapter lang fn root).to_text v)
      = "# " ++ fn ++ " [" ++ displayName lang ++ "]" := by
  have hfile : (run_adapter lang fn root).file_name = fn := by
    cases lang <;> rfl
  have hlangf : (run_adapter lang fn root).language = displayName lang := by
    cases lang <;> rfl
  have hlnl : '\n' ∉ (displayName lang).data := by
    cases lang <;> decide
  have hmain := to_text_first_line (run_adapter lang fn root) v
    (by rw [hfile]; exact hfn) (by rw [hlangf]; exact hlnl)
  rw [hfile, hlangf] at hmain
  exact hmain

theorem claim_C7_witness :
    firstLine ((run_adapter LangId.go "m.go" goScenarioRoot).to_text false)
      = "# m.go [Go]" :=
  (claim_C7_header_line "m.go" goScenarioRoot LangId.go false (by decide) (by decide)).trans
    (by decide)

/-- C8: every adapter preserves source declaration order: each imports,
classes and top-level-functions sequence equals (or, for the deduplicating
JS/TS imports, is an order-preserving sublist of) the in-order concatenation
of per-declaration contributions over the source siblings; every class-body
method loop does the same; and the serializer renders the stored sequences
in exactly their stored order. -/
theorem claim_C8_declaration_order :
    (∀ fn root,
      (Python.extract fn root).imports = root.children.flatMap pyImportContrib ∧
      (Python.extract fn root).classes = root.children.flatMap pyClassContrib ∧
      (Python.extract fn root).functions = root.children.flatMap pyFnContrib) ∧
    (∀ (l : List Node) acc, l.foldl Python.methodStep acc = acc ++ l.flatMap pyMethodContrib) ∧
    (∀ fn root,
      (Go.extract fn root).imports = root.children.enum.flatMap (fun p => goImportContrib p.2) ∧
      (Go.extract fn root).classes = root.children.enum.flatMap (goClassContrib root.children) ∧
      (Go.extract fn root).functions = root.children.enum.flatMap (goFnContrib root.children)) ∧
    (∀ fn root,
      (Rust.extract fn root).imports = root.children.enum.flatMap (fun p => rustImportContrib p.2) ∧
      (Rust.extract fn root).classes = root.children.enum.flatMap (rustClassContrib root.children) ∧
      (Rust.extract fn root).functions = root.children.enum.flatMap (rustFnContrib root.children)) ∧
    (∀ siblings (l : List (Nat × Node)) acc,
      l.foldl (Rust.implMethodStep siblings) acc = acc ++ l.flatMap (rustImplMethodContrib siblings)) ∧
    (∀ lang fn root,
      (JsTs.extract lang fn root).classes
          = root.children.enum.flatMap (jstsClassContrib root.children) ∧
      (JsTs.extract lang fn root).functions
          = root.children.enum.flatMap (jstsFnContrib root.children) ∧
      (JsTs.extract lang fn root).imports.Sublist
          (root.children.enum.flatMap jstsImportContrib)) ∧
    (∀ siblings (l : List (Nat × Node)) acc,
      l.foldl (JsTs.methodStep siblings) acc = acc ++ l.flatMap (jstsMethodContrib siblings)) ∧
    (∀ fn root,
      (Java.extract fn root).imports = root.children.enum.flatMap (fun p => javaImportContrib p.2) ∧
      (Java.extract fn root).classes = root.children.enum.flatMap (javaClassContrib root.children) ∧
      (Java.extract fn root).functions = []) ∧
    (∀ siblings (l : List (Nat × Node)) acc,
      l.foldl (Java.methodStep siblings) acc = acc ++ l.flatMap (javaMethodContrib siblings)) ∧
    (∀ fn root,
      (Cpp.extract fn root).imports = root.children.enum.flatMap (fun p => cppImportContrib p.2) ∧
      (Cpp.extract fn root).classes = root.children.enum.flatMap (cppClassContrib root.children) ∧
      (Cpp.extract fn root).functions = root.children.enum.flatMap (cppFnContrib root.children)) ∧
    (∀ siblings (l : List (Nat × Node)) acc,
      l.foldl (Cpp.methodStep siblings) acc = acc ++ l.flatMap (cppMethodContrib siblings)) ∧
    (∀ (sk : CodeSkeleton) (v : Bool), sk.toLines v =
      ["# " ++ sk.file_name ++ " [" ++ sk.language ++ "]"]
        ++ (if sk.module_doc != "" then
              ["module: \"" ++ pyStrip ((pySplitNl sk.module_doc).headD "") ++ "\""]
            else [])
        ++ (if sk.imports != ([] : List String) then
              ["imports: " ++ pyJoin ", " sk.imports]
            else [])
        ++ [""]
        ++ sk.classes.flatMap (classLines v)
        ++ sk.functions.flatMap (fnLines v)) ∧
    (∀ (v : Bool) (cls : ClassSkeleton), classLines v cls =
      ["class " ++ cls.name ++
        (if cls.bases != ([] : List String) then "(" ++ pyJoin ", " cls.bases ++ ")" else "")]
        ++ _doc v cls.docstring "  "
        ++ cls.methods.flatMap (methodLines v)
        ++ [""]) :=
  ⟨py_extract_decomp, py_methods_decomp, go_extract_decomp, rust_extract_decomp,
   rust_impl_methods_decomp,
   fun lang fn root =>
     ⟨(jsts_extract_decomp lang fn root).2.1, (jsts_extract_decomp lang fn root).2.2,
      jsts_extract_imports_sublist lang fn root⟩,
   jsts_methods_decomp, java_extract_decomp, java_methods_decomp,
   cpp_extract_decomp, cpp_methods_decomp, toLines_decomp, classLines_decomp⟩

/-- C9: import deduplication is adapter-specific: the JS/TS adapter's
imports sequence never contains duplicates, while the Python adapter keeps
repeated import statements, as witnessed by a module importing os twice. -/
theorem claim_C9_import_dedup :
    (∀ lang fn root, (JsTs.extract lang fn root).imports.Nodup) ∧
    (Python.extract "dup.py" pyDupRoot).imports = ["os", "os"] ∧
    ¬ (Python.extract "dup.py" pyDupRoot).imports.Nodup := by
  refine ⟨jsts_extract_imports_nodup, by decide, by decide⟩

/-- C10: every ClassSkeleton the Go adapter produces has empty bases and
empty methods, and every Go function or method declaration lands, in source
order, in the top-level functions sequence instead. -/
theorem claim_C10_go_structs_flat (fn : String) (root : Node) :
    (∀ cls ∈ (Go.extract fn root).classes, cls.bases = [] ∧ cls.methods = []) ∧
    (Go.extract fn root).functions
      = root.children.enum.flatMap (goFnContrib root.children) := by
  constructor
  · intro cls hcls
    rw [(go_extract_decomp fn root).2.1, List.mem_flatMap] at hcls
    obtain ⟨p, _, hp⟩ := hcls
    unfold goClassContrib at hp
    split at hp
    · exact absurd hp (by simp)
    · split at hp
      · exact absurd hp (by simp)
      · split at hp
        · exact go_typeSpecClasses_empty root.children p.1 p.2 cls hp
        · exact absurd hp (by simp)
  · exact (go_extract_decomp fn root).2.2

theorem claim_C10_witness :
    (⟨"Server", [], "", []⟩ : ClassSkeleton).bases = [] ∧
    (⟨"Server", [], "", []⟩ : ClassSkeleton).methods = [] :=
  (claim_C10_go_structs_flat "w.go" goWitnessRoot).1 ⟨"Server", [], "", []⟩ (by decide)

end OpenViking
